import Mathlib

/-!
# Shortlist — LLM response normalization pipeline, shallow embedding

Shallow embedding of the JSON-contract enforcement layer of the Shortlist
backend (`src/backend/app`): JSON extraction from raw model output,
field-level sanitization, retry/fallback control flow of the generation
nodes, path/content security filtering for the scaffold task, and the
company-modifier table lookup.  Strings are modelled as `List Char`,
Python floats/ints as `ℚ`, and `json.loads` as an executable
recursive-descent parser `json_loads`.
-/

namespace Shortlist

/-- JSON values as produced by Python's `json.loads`: `null`, booleans,
numbers (ints and floats merged into `ℚ`), strings, arrays and objects
(association lists in document order, duplicates possible). -/
inductive JVal where
  | null : JVal
  | bool : Bool → JVal
  | num  : ℚ → JVal
  | str  : List Char → JVal
  | arr  : List JVal → JVal
  | obj  : List (List Char × JVal) → JVal

/-- Python `dict.get k default` on a parsed JSON object: the value of the
last binding of `k` (later duplicate keys override earlier ones). -/
def jget (kvs : List (List Char × JVal)) (k : List Char) (dflt : JVal) : JVal :=
  match kvs.reverse.lookup k with
  | some v => v
  | none => dflt

/-- Optional lookup variant of `jget`. -/
def jget? (kvs : List (List Char × JVal)) (k : List Char) : Option JVal :=
  kvs.reverse.lookup k

/-- JSON whitespace (RFC 8259, as accepted by `json.loads`). -/
def isJWs (c : Char) : Bool :=
  c = ' ' || c = '\t' || c = '\n' || c = '\r'

/-- ASCII decimal digit test. -/
def isDigitCh (c : Char) : Bool := '0' ≤ c && c ≤ '9'

/-- Digit value of an ASCII digit. -/
def digitVal (c : Char) : ℕ := c.toNat - '0'.toNat

/-- Value of a digit string, most significant first. -/
def digitsVal (ds : List Char) : ℕ :=
  ds.foldl (fun acc c => 10 * acc + digitVal c) 0

/-- Hex digit value (for `\uXXXX` escapes). -/
def hexVal (c : Char) : ℕ :=
  if '0' ≤ c ∧ c ≤ '9' then c.toNat - '0'.toNat
  else if 'a' ≤ c ∧ c ≤ 'f' then c.toNat - 'a'.toNat + 10
  else if 'A' ≤ c ∧ c ≤ 'F' then c.toNat - 'A'.toNat + 10
  else 0

def isHexDigitCh (c : Char) : Bool :=
  ('0' ≤ c && c ≤ '9') || ('a' ≤ c && c ≤ 'f') || ('A' ≤ c && c ≤ 'F')

/-- Parse the body of a JSON string literal (after the opening quote),
returning the decoded characters and the rest after the closing quote.
Unescaped control characters are rejected, as in Python's strict mode. -/
def parseJStr : List Char → Option (List Char × List Char)
  | [] => none
  | '"' :: rest => some ([], rest)
  | '\\' :: esc =>
    match esc with
    | '"' :: r => (parseJStr r).map (fun p => ('"' :: p.1, p.2))
    | '\\' :: r => (parseJStr r).map (fun p => ('\\' :: p.1, p.2))
    | '/' :: r => (parseJStr r).map (fun p => ('/' :: p.1, p.2))
    | 'b' :: r => (parseJStr r).map (fun p => ('\x08' :: p.1, p.2))
    | 'f' :: r => (parseJStr r).map (fun p => ('\x0c' :: p.1, p.2))
    | 'n' :: r => (parseJStr r).map (fun p => ('\n' :: p.1, p.2))
    | 'r' :: r => (parseJStr r).map (fun p => ('\r' :: p.1, p.2))
    | 't' :: r => (parseJStr r).map (fun p => ('\t' :: p.1, p.2))
    | 'u' :: h1 :: h2 :: h3 :: h4 :: r =>
      if isHexDigitCh h1 && isHexDigitCh h2 && isHexDigitCh h3 && isHexDigitCh h4 then
        let code := ((hexVal h1 * 16 + hexVal h2) * 16 + hexVal h3) * 16 + hexVal h4
        (parseJStr r).map (fun p => (Char.ofNat code :: p.1, p.2))
      else none
    | _ => none
  | c :: rest =>
    if c.toNat < 0x20 then none
    else (parseJStr rest).map (fun p => (c :: p.1, p.2))

/-- Split a leading run of decimal digits off a character list. -/
def spanDigits (s : List Char) : List Char × List Char :=
  (s.takeWhile isDigitCh, s.dropWhile isDigitCh)

/-- Optional fraction part `(\.[0-9]+)?` of a JSON number: if a dot is not
followed by at least one digit the group simply does not match (the dot is
left unconsumed), as with Python's `NUMBER_RE`. -/
def parseFracPart (s : List Char) : List Char × List Char :=
  match s with
  | '.' :: r =>
    (match spanDigits r with
     | ([], _) => ([], s)
     | (ds, rest) => (ds, rest))
  | _ => ([], s)

/-- Signed digit run after `e`/`E`; if no digits follow, the whole optional
exponent group fails to match and `orig` is left unconsumed. -/
def parseExpDigits (orig : List Char) (s : List Char) : ℤ × List Char :=
  let (sign, r) := match s with
    | '+' :: r => ((1 : ℤ), r)
    | '-' :: r => ((-1 : ℤ), r)
    | _ => ((1 : ℤ), s)
  match spanDigits r with
  | ([], _) => (0, orig)
  | (ds, rest) => (sign * (digitsVal ds : ℤ), rest)

/-- Optional exponent part `([eE][+-]?[0-9]+)?` of a JSON number. -/
def parseExpPart (s : List Char) : ℤ × List Char :=
  match s with
  | 'e' :: r => parseExpDigits s r
  | 'E' :: r => parseExpDigits s r
  | _ => (0, s)

/-- The rational `±(intDs.fracDs) · 10^expd` of a decimal literal, built with
`mkRat` (kernel-computable, unlike the field operations of `ℚ`). -/
def qOfParts (neg : Bool) (intDs fracDs : List Char) (expd : ℤ) : ℚ :=
  let mantNum : ℤ :=
    Int.ofNat (digitsVal intDs * Nat.pow 10 fracDs.length + digitsVal fracDs)
  let mantNum : ℤ := if neg then -mantNum else mantNum
  if 0 ≤ expd then
    mkRat (mantNum * Int.ofNat (Nat.pow 10 expd.toNat)) (Nat.pow 10 fracDs.length)
  else
    mkRat mantNum (Nat.pow 10 fracDs.length * Nat.pow 10 (-expd).toNat)

/-- Parse a JSON number (`-? (0 | [1-9][0-9]*) (\.[0-9]+)? ([eE][+-]?[0-9]+)?`,
Python's `NUMBER_RE`), returning its value as a rational and the rest.  A
leading `0` ends the integer part (so `05` parses as `0` with rest `5`).
`NaN`/`Infinity` constants are never produced by this codebase's inputs and
are not modelled. -/
def parseJNum (s : List Char) : Option (ℚ × List Char) :=
  let (neg, s1) := match s with
    | '-' :: r => (true, r)
    | _ => (false, s)
  match spanDigits s1 with
  | ([], _) => none
  | (d :: ds, s2) =>
    let (intDs, s2') := if d = '0' then ([d], ds ++ s2) else (d :: ds, s2)
    let (fracDs, s3) := parseFracPart s2'
    let (expd, s4) := parseExpPart s3
    some (qOfParts neg intDs fracDs expd, s4)

mutual

/-- Parse one JSON value (fuelled recursive descent mirroring `json.loads`). -/
def parseJVal : ℕ → List Char → Option (JVal × List Char)
  | 0, _ => none
  | Nat.succ fuel, s =>
    let t := s.dropWhile isJWs
    match t with
    | 'n' :: 'u' :: 'l' :: 'l' :: rest => some (.null, rest)
    | 't' :: 'r' :: 'u' :: 'e' :: rest => some (.bool true, rest)
    | 'f' :: 'a' :: 'l' :: 's' :: 'e' :: rest => some (.bool false, rest)
    | '"' :: rest => (parseJStr rest).map (fun p => (.str p.1, p.2))
    | '[' :: rest =>
      (match (rest.dropWhile isJWs) with
       | ']' :: r2 => some (.arr [], r2)
       | r2 => (parseJItems fuel r2).map (fun p => (.arr p.1, p.2)))
    | '{' :: rest =>
      (match (rest.dropWhile isJWs) with
       | '}' :: r2 => some (.obj [], r2)
       | r2 => (parseJMembers fuel r2).map (fun p => (.obj p.1, p.2)))
    | _ => (parseJNum t).map (fun p => (.num p.1, p.2))

/-- Parse the items of a non-empty JSON array, up to and including `]`. -/
def parseJItems : ℕ → List Char → Option (List JVal × List Char)
  | 0, _ => none
  | Nat.succ fuel, s =>
    match parseJVal fuel s with
    | none => none
    | some (v, rest) =>
      match rest.dropWhile isJWs with
      | ']' :: r2 => some ([v], r2)
      | ',' :: r2 => (parseJItems fuel r2).map (fun p => (v :: p.1, p.2))
      | _ => none

/-- Parse the members of a non-empty JSON object, up to and including `}`. -/
def parseJMembers : ℕ → List Char → Option (List (List Char × JVal) × List Char)
  | 0, _ => none
  | Nat.succ fuel, s =>
    match s.dropWhile isJWs with
    | '"' :: rest =>
      match parseJStr rest with
      | none => none
      | some (key, r1) =>
        match r1.dropWhile isJWs with
        | ':' :: r2 =>
          (match parseJVal fuel r2 with
           | none => none
           | some (v, r3) =>
             match r3.dropWhile isJWs with
             | '}' :: r4 => some ([(key, v)], r4)
             | ',' :: r4 => (parseJMembers fuel r4).map (fun p => ((key, v) :: p.1, p.2))
             | _ => none)
        | _ => none
    | _ => none

end

/-- Python `dict` construction from parsed members: duplicate keys collapse,
keeping the first occurrence's position and the last occurrence's value. -/
def setKey (kvs : List (List Char × JVal)) (k : List Char) (v : JVal) :
    List (List Char × JVal) :=
  if (kvs.map Prod.fst).contains k then
    kvs.map (fun p => if p.1 = k then (k, v) else p)
  else kvs ++ [(k, v)]

/-- Collapse duplicate keys of an association list as Python dict insertion does. -/
def dedupObj (kvs : List (List Char × JVal)) : List (List Char × JVal) :=
  kvs.foldl (fun acc kv => setKey acc kv.1 kv.2) []

/-- Normalise every object in a parse result to Python-dict key semantics. -/
def dedupJ (fuel : ℕ) : JVal → JVal
  | .obj kvs =>
    (match fuel with
     | 0 => .obj kvs
     | Nat.succ f => .obj ((dedupObj kvs).map (fun kv => (kv.1, dedupJ f kv.2))))
  | .arr xs =>
    (match fuel with
     | 0 => .arr xs
     | Nat.succ f => .arr (xs.map (dedupJ f)))
  | v => v

/-- `json.loads`: parse a complete JSON document; trailing non-whitespace
(or any syntax error) yields `none` instead of an exception.  Objects get
Python-dict duplicate-key semantics. -/
def json_loads (s : List Char) : Option JVal :=
  match parseJVal (s.length + 2) s with
  | none => none
  | some (v, rest) =>
    if rest.dropWhile isJWs = [] then some (dedupJ (s.length + 2) v) else none

/-! ## Python string primitives -/

/-- Python `str.strip()` whitespace (ASCII as relevant to this codebase). -/
def isPySpace (c : Char) : Bool :=
  c = ' ' || c = '\t' || c = '\n' || c = '\r' || c = '\x0b' || c = '\x0c'

/-- `str.lstrip()`. -/
def pyLStrip (s : List Char) : List Char := s.dropWhile isPySpace

/-- `str.rstrip()`. -/
def pyRStrip (s : List Char) : List Char := (s.reverse.dropWhile isPySpace).reverse

/-- `str.strip()`. -/
def pyStrip (s : List Char) : List Char := pyRStrip (pyLStrip s)

/-- Python truthiness of a JSON value (`bool(x)`). -/
def pyFalsy : JVal → Bool
  | .null => true
  | .bool b => !b
  | .num q => q = 0
  | .str s => s.isEmpty
  | .arr xs => xs.isEmpty
  | .obj kvs => kvs.isEmpty

/-- `float(x)` on a string: optional sign, digits with optional dot on either
side, optional exponent, surrounded by whitespace (`inf`/`nan` not modelled —
never produced by this pipeline). -/
def pyFloatOfStr (s : List Char) : Option ℚ :=
  let t := pyStrip s
  let (neg, t1) := match t with
    | '+' :: r => (false, r)
    | '-' :: r => (true, r)
    | _ => (false, t)
  let (intDs, t2) := spanDigits t1
  let (fracDs, t3) := match t2 with
    | '.' :: r => spanDigits r
    | _ => ([], t2)
  if intDs = [] ∧ fracDs = [] then none
  else
    let (expd, t4) := parseExpPart t3
    if t4 ≠ [] then none
    else some (qOfParts neg intDs fracDs expd)

/-- `float(x)` coercion; `none` models the `ValueError`/`TypeError` raised on
non-coercible values. -/
def pyFloat? : JVal → Option ℚ
  | .num q => some q
  | .bool b => some (if b then 1 else 0)
  | .str s => pyFloatOfStr s
  | _ => none

/-- A numeric operand for Python `+` (numbers and booleans). -/
def pyNum? : JVal → Option ℚ
  | .num q => some q
  | .bool b => some (if b then 1 else 0)
  | _ => none

/-- `x[:n]` (works on lists and strings; `none` models `TypeError`). -/
def pySlice? (v : JVal) (n : ℕ) : Option JVal :=
  match v with
  | .arr xs => some (.arr (xs.take n))
  | .str s => some (.str (s.take n))
  | _ => none

/-- `len(x)` (`none` models `TypeError` on non-sized values). -/
def pyLen? : JVal → Option ℕ
  | .arr xs => some xs.length
  | .str s => some s.length
  | .obj kvs => some kvs.length
  | _ => none

/-- Iterating a JSON value with `for` (`none` models `TypeError`): lists give
their items, strings their characters, dicts their keys. -/
def iterElems : JVal → Option (List JVal)
  | .arr xs => some xs
  | .str s => some (s.map (fun c => .str [c]))
  | .obj kvs => some (kvs.map (fun kv => .str kv.1))
  | _ => none

/-- Decimal digits of a natural number, most significant first. -/
def natDigits (n : ℕ) : List Char := Nat.toDigits 10 n

/-- Decimal rendering of an integer. -/
def renderInt (z : ℤ) : List Char :=
  if z < 0 then '-' :: natDigits z.natAbs else natDigits z.natAbs

/-- Fractional decimal digits of `r / d`, up to the given fuel. -/
def fracDigitChars : ℕ → ℕ → ℕ → List Char
  | 0, _, _ => []
  | _, 0, _ => []
  | Nat.succ fuel, r, d =>
    let r10 := r * 10
    Char.ofNat ('0'.toNat + r10 / d) :: fracDigitChars fuel (r10 % d) d

/-- Decimal rendering of a rational (integers without a fractional part; the
int/float distinction of Python is not tracked by the model). -/
def renderQ (q : ℚ) : List Char :=
  if q.den = 1 then renderInt q.num
  else
    (if q < 0 then ['-'] else []) ++
      natDigits (q.num.natAbs / q.den) ++
      '.' :: fracDigitChars 30 (q.num.natAbs % q.den) q.den

mutual

/-- `repr(x)` of a JSON value: single-quoted strings, `repr`-rendered
containers. -/
def pyRepr : JVal → List Char
  | .str s => '\'' :: s ++ ['\'']
  | .null => ("None").toList
  | .bool true => ("True").toList
  | .bool false => ("False").toList
  | .num q => renderQ q
  | .arr xs => '[' :: pyReprItems xs ++ [']']
  | .obj kvs => '{' :: pyReprMembers kvs ++ ['}']

/-- Comma-separated repr of list items. -/
def pyReprItems : List JVal → List Char
  | [] => []
  | [v] => pyRepr v
  | v :: rest => pyRepr v ++ ',' :: ' ' :: pyReprItems rest

/-- Comma-separated repr of dict members. -/
def pyReprMembers : List (List Char × JVal) → List Char
  | [] => []
  | [(k, v)] => '\'' :: k ++ '\'' :: ':' :: ' ' :: pyRepr v
  | (k, v) :: rest =>
    '\'' :: k ++ '\'' :: ':' :: ' ' :: pyRepr v ++ ',' :: ' ' :: pyReprMembers rest

end

/-- Python `str(x)` of a JSON value: identity on strings (the only case any
theorem below exercises, and the only case that must reduce definitionally);
`repr`-style on every other value, as in Python. -/
def pyStr (v : JVal) : List Char :=
  match v with
  | .str s => s
  | v => pyRepr v

/-! ## Markdown-fence stripping, per node (each mirrors that node's regexes) -/

/-- `re.sub(r'^```[a-zA-Z]*\s*', '', text)` (jd node and jd API). -/
def subLeadFenceTag (s : List Char) : List Char :=
  match s with
  | '`' :: '`' :: '`' :: rest => (rest.dropWhile Char.isAlpha).dropWhile isPySpace
  | _ => s

/-- `re.sub(r'```\s*$', '', text)` (jd node and jd API). -/
def subTrailFence (s : List Char) : List Char :=
  match s.reverse.dropWhile isPySpace with
  | '`' :: '`' :: '`' :: rest => rest.reverse
  | _ => s

/-- `re.sub(r"^```(?:json)?\s*", "", raw)` (fitness node). -/
def subLeadFenceJson (s : List Char) : List Char :=
  match s with
  | '`' :: '`' :: '`' :: rest =>
    let rest2 := match rest with
      | 'j' :: 's' :: 'o' :: 'n' :: r => r
      | _ => rest
    rest2.dropWhile isPySpace
  | _ => s

/-- `re.sub(r"\s*```\s*$", "", raw)` (fitness node). -/
def subTrailFenceWs (s : List Char) : List Char :=
  match s.reverse.dropWhile isPySpace with
  | '`' :: '`' :: '`' :: rest => (rest.dropWhile isPySpace).reverse
  | _ => s

/-! ## Path/content security filter (`scaffold_node.py`) -/

/-- Maximum total size of scaffold content (512 KB), `MAX_SCAFFOLD_CONTENT_BYTES`. -/
def MAX_SCAFFOLD_CONTENT_BYTES : ℕ := 512 * 1024

/-- `ALLOWED_EXTENSIONS`: the file-extension allow-list of `scaffold_node.py`. -/
def ALLOWED_EXTENSIONS : List (List Char) :=
  [(".py").toList, (".js").toList, (".ts").toList, (".jsx").toList, (".tsx").toList,
   (".go").toList, (".rs").toList, (".java").toList, (".kt").toList,
   (".html").toList, (".css").toList, (".scss").toList, (".json").toList,
   (".yaml").toList, (".yml").toList, (".toml").toList, (".cfg").toList,
   (".md").toList, (".txt").toList, (".sql").toList, (".sh").toList,
   (".bash").toList, (".dockerfile").toList, (".env").toList,
   (".gitignore").toList, (".dockerignore").toList, (".editorconfig").toList,
   (".prettierrc").toList, (".eslintrc").toList, (".ini").toList,
   (".lock").toList, (".xml").toList, (".gradle").toList, (".properties").toList]

/-- `FORBIDDEN_PATH_PARTS`: path components that are forbidden. -/
def FORBIDDEN_PATH_PARTS : List (List Char) :=
  [("__pycache__").toList, ("node_modules").toList, (".git").toList,
   ("..").toList, ("~").toList]

/-- The allow-list of dot-prefixed segments inside `_sanitize_path`. -/
def DOT_ALLOWED : List (List Char) :=
  [(".env").toList, (".env.example").toList, (".gitignore").toList,
   (".dockerignore").toList, (".editorconfig").toList, (".prettierrc").toList,
   (".eslintrc").toList, (".github").toList]

/-- A path separator as split by `re.split(r"[/\\]", path)`. -/
def isSep (c : Char) : Bool := c = '/' || c = '\\'

/-- `re.split(r"[/\\]", path)`: split on every separator, keeping empty
segments; always returns at least one segment. -/
def splitSeps : List Char → List (List Char)
  | [] => [[]]
  | c :: rest =>
    if isSep c then [] :: splitSeps rest
    else
      match splitSeps rest with
      | [] => [[c]]
      | seg :: segs => (c :: seg) :: segs

/-- One segment violates `_sanitize_path`'s component rules: a forbidden name,
or a non-allow-listed dot-prefixed segment. -/
def badSegment (part : List Char) : Bool :=
  decide (part ∈ FORBIDDEN_PATH_PARTS) ||
    (match part with
     | '.' :: _ => decide (part ∉ DOT_ALLOWED)
     | _ => false)

/-- `"." + filename.rsplit(".", 1)[-1].lower()`. -/
def extOf (filename : List Char) : List Char :=
  '.' :: ((filename.reverse.takeWhile (fun c => c ≠ '.')).reverse.map Char.toLower)

/-- The normalised path `path.strip().lstrip("/").lstrip("\\")`. -/
def pathNorm (path : List Char) : List Char :=
  ((pyStrip path).dropWhile (fun c => c = '/')).dropWhile (fun c => c = '\\')

/-- `_sanitize_path` of `scaffold_node.py`: validate and sanitize a file path;
`none` models Python's `None` (invalid path).  The source's local variables
`path`/`parts`/`filename` are inlined as `pathNorm path`, `splitSeps (pathNorm
path)` and `getLastD`. -/
def sanitize_path (path : List Char) : Option (List Char) :=
  if pathNorm path = [] ∨ 300 < (pathNorm path).length then none
  else if (splitSeps (pathNorm path)).any badSegment then none
  else if '.' ∈ (splitSeps (pathNorm path)).getLastD [] ∧
      extOf ((splitSeps (pathNorm path)).getLastD []) ∉ ALLOWED_EXTENSIONS then none
  else some (List.intercalate ['/'] (splitSeps (pathNorm path)))

/-- UTF-8 byte length of a string, `len(content.encode("utf-8", errors="replace"))`. -/
def utf8Len (s : List Char) : ℕ := (s.map Char.utf8Size).sum

/-- The per-file loop of `_validate_scaffold` (scaffold_node.py lines 89–110):
skip non-dict entries and invalid paths, accumulate UTF-8 content bytes, and
break as soon as the running total would exceed the cap.  `none` models an
uncaught exception (a non-string `path` value). -/
def scaffoldFilesLoop (cap : ℕ) : ℕ → List JVal → Option (List JVal)
  | _, [] => some []
  | total, rf :: rest =>
    match rf with
    | .obj kvs =>
      (match jget kvs (("path").toList) (.str []) with
       | .str rawPath =>
         (match sanitize_path rawPath with
          | none => scaffoldFilesLoop cap total rest
          | some p =>
            let content := pyStr (jget kvs (("content").toList) (.str []))
            let total' := total + utf8Len content
            if total' > cap then some []
            else
              (scaffoldFilesLoop cap total' rest).map (fun fs =>
                JVal.obj
                  [(("path").toList, .str p),
                   (("content").toList, .str content),
                   (("language").toList,
                     .str ((pyStr (jget kvs (("language").toList) (.str (("text").toList)))).take 30)),
                   (("description").toList,
                     .str ((pyStr (jget kvs (("description").toList) (.str []))).take 300))] :: fs))
       | _ => none)
    | _ => scaffoldFilesLoop cap total rest

/-- `re.sub(r"[^a-z0-9\-]", "", name.lower())[:80] or "scaffold-project"`. -/
def sanitizeProjectName (raw : List Char) : List Char :=
  let cleaned :=
    ((raw.map Char.toLower).filter
      (fun c => ('a' ≤ c && c ≤ 'z') || ('0' ≤ c && c ≤ '9') || c = '-')).take 80
  if cleaned = [] then ("scaffold-project").toList else cleaned

/-- `_validate_scaffold` of `scaffold_node.py`: validate and sanitize scaffold
output (a dict with `files`, `project_name`, `file_tree`); `none` models an
uncaught exception. -/
def validate_scaffold (scaffold : List (List Char × JVal)) : Option JVal :=
  match iterElems (jget scaffold (("files").toList) (.arr [])) with
  | none => none
  | some rawFiles =>
    match scaffoldFilesLoop MAX_SCAFFOLD_CONTENT_BYTES 0 rawFiles with
    | none => none
    | some files =>
      let project_name :=
        sanitizeProjectName
          (pyStr (jget scaffold (("project_name").toList) (.str (("scaffold-project").toList))))
      let file_tree := (pyStr (jget scaffold (("file_tree").toList) (.str []))).take 5000
      some (.obj
        [(("project_name").toList, .str project_name),
         (("files").toList, .arr files),
         (("file_tree").toList, .str file_tree)])

/-- `_validate_scaffold` applied to an arbitrary value (a non-dict argument
raises, hence `none`). -/
def validate_scaffold_v : JVal → Option JVal
  | .obj kvs => validate_scaffold kvs
  | _ => none

/-! ## Per-node extraction attempts -/

/-- One parse attempt of `jd_analysis_node` (lines 54–72): strip fences,
slice from the first `\x7b` to the last `\x7d` when the text does not already
start with `\x7b`, then `json.loads`. -/
def jdTryParse (content : List Char) : Option JVal :=
  let raw := pyStrip content
  let raw := subTrailFence (subLeadFenceTag raw)
  let raw := pyStrip raw
  let raw :=
    match raw with
    | '{' :: _ => raw
    | _ =>
      let sliced := raw.dropWhile (fun c => c ≠ '{')
      if sliced = [] then raw
      else
        let upto := (sliced.reverse.dropWhile (fun c => c ≠ '}')).reverse
        if upto.length > 1 then upto else sliced
  json_loads raw

/-- One parse attempt of `fitness_scorer_node` (lines 122–129): strip fence
markers, then `json.loads` directly (no brace slicing). -/
def fitnessTryParse (content : List Char) : Option JVal :=
  let raw := pyStrip content
  let raw := subTrailFenceWs (subLeadFenceJson raw)
  json_loads raw

/-- One parse attempt of `capstone_generator_node` (lines 57–67): manual
fence handling, then `json.loads`. -/
def capstoneTryParse (content : List Char) : Option JVal :=
  let raw := pyStrip content
  let raw :=
    if (("```").toList).isPrefixOf raw then
      let idx := if '\n' ∈ raw then (raw.takeWhile (fun c => c ≠ '\n')).length else 3
      let r1 := raw.drop idx
      let r2 := if (("```").toList).isSuffixOf r1 then r1.take (r1.length - 3) else r1
      pyStrip r2
    else raw
  json_loads raw

/-- `_strip_markdown_fences` of `api/v1/jd.py`. -/
def strip_markdown_fences (text : List Char) : List Char :=
  pyStrip (subTrailFence (subLeadFenceTag (pyStrip text)))

/-- `_try_extract_json` of `api/v1/jd.py`: length guard, fence stripping,
first-`\x7b`-to-last-`\x7d` slice, parse, dict check.  Absence is the only
failure signal. -/
def try_extract_json (text : List Char) : Option (List (List Char × JVal)) :=
  if text.length < 10 then none
  else
    let clean := strip_markdown_fences text
    let sliced := clean.dropWhile (fun c => c ≠ '{')
    if sliced = [] then none
    else
      let upto := (sliced.reverse.dropWhile (fun c => c ≠ '}')).reverse
      if upto.length ≤ 1 then none
      else
        match json_loads upto with
        | some (.obj kvs) => some kvs
        | _ => none

/-- The fence-cleaning prefix of `_parse_scorecard` (`repo_node.py` lines
49–54): strip, drop the first line of a leading fence and a trailing ` ``` `
line, re-join, strip. -/
def scorecardClean (content : List Char) : List Char :=
  let c := pyStrip content
  if (("```").toList).isPrefixOf c then
    let lines := c.splitOn '\n'
    let lines2 :=
      if pyStrip (lines.getLastD []) = ("```").toList then (lines.drop 1).dropLast
      else lines.drop 1
    pyStrip (List.intercalate ['\n'] lines2)
  else c

/-- The brace-slice retry of `_parse_scorecard` (lines 60–66). -/
def scorecardSlice (c : List Char) : Option JVal :=
  let sliced := c.dropWhile (fun ch => ch ≠ '{')
  let upto := (sliced.reverse.dropWhile (fun ch => ch ≠ '}')).reverse
  if sliced ≠ [] ∧ upto.length ≥ 2 then json_loads upto else none

/-- The deterministic-defaults scorecard returned by `_parse_scorecard` when
parsing fails (lines 69–78); `c` is the cleaned content. -/
def scorecardFallback (c : List Char) : JVal :=
  let dim : JVal := .obj
    [(("score").toList, .num 5),
     (("details").toList, .str (("Unable to parse").toList)),
     (("suggestions").toList, .arr [])]
  .obj
    [(("code_quality").toList, dim),
     (("test_coverage").toList, dim),
     (("complexity").toList, dim),
     (("structure").toList, dim),
     (("deployment_readiness").toList, dim),
     (("overall_score").toList, .num 5),
     (("summary").toList,
       .str (if c = [] then ("Analysis completed but response parsing failed.").toList
             else c.take 500)),
     (("top_improvements").toList,
       .arr [.str (("Retry analysis for detailed feedback").toList)])]

/-- `_parse_scorecard` of `repo_node.py`: parse the LLM response into a
scorecard dict, with the deterministic fallback on failure. -/
def parse_scorecard (content : List Char) : JVal :=
  let c := scorecardClean content
  match json_loads c with
  | some v => v
  | none =>
    match scorecardSlice c with
    | some v => v
    | none => scorecardFallback c

/-! ## Node retry loops and sanitizers -/

/-- The fallback skill profile of `jd_analysis_node` (lines 81–90), built when
both parse attempts fail; `role` is the state's `role` (the node defaults it
to `"Software Engineering"` when absent) and `lastResponse` the final raw
model response. -/
def jdFallback (role lastResponse : List Char) : JVal :=
  .obj
    [(("skills").toList, .arr []),
     (("experience_level").toList, .str (("mid").toList)),
     (("domain").toList, .str role),
     (("engineering_expectations").toList, .arr []),
     (("key_responsibilities").toList, .arr []),
     (("summary").toList, .str (lastResponse.take 8000))]

/-- Outcome of a node run in the presence of transport failures: either the
node's normal output, or the node's generic error return (its `except` block)
carrying the formatted error messages. -/
inductive RunOut (α : Type) where
  | ok (out : α)
  | failed (errors : List (List Char))

/-- `jd_analysis_node`'s retry loop over a generator `g` (the response text of
invocation `n` is `g n`, or a transport error that Python raises): two
attempts for valid JSON, then the fallback profile; a raised transport error
escapes the loop at once and lands in the node's `except` block, which
reports `"JD analysis failed: ..."`. -/
def jd_analysis_runT (role : List Char) (g : ℕ → Except (List Char) (List Char)) :
    RunOut JVal :=
  match g 0 with
  | .error e => .failed [(("JD analysis failed: ").toList) ++ e]
  | .ok r0 =>
    match jdTryParse r0 with
    | some v => .ok v
    | none =>
      match g 1 with
      | .error e => .failed [(("JD analysis failed: ").toList) ++ e]
      | .ok r1 =>
        .ok (match jdTryParse r1 with
             | some v => v
             | none => jdFallback role r1)

/-- `jd_analysis_node` with a transport-error-free generator: the returned
`skill_profile`. -/
def jd_analysis_run (role : List Char) (g : ℕ → List Char) : JVal :=
  match jd_analysis_runT role (fun n => .ok (g n)) with
  | .ok v => v
  | .failed _ => .null

/-- The validate-and-normalize section of `fitness_scorer_node` (lines
144–158); `none` models an exception escaping to the node's generic handler
(non-coercible score, unsliceable field). -/
def fitness_normalize (result : List (List Char × JVal)) : Option JVal :=
  match pyFloat? (jget result (("fitness_score").toList) (.num 0)) with
  | none => none
  | some fs =>
    let fitness_score : ℚ := max 0 (min 100 fs)
    let verdict : JVal :=
      match jget result (("verdict").toList) (.str (("weak_fit").toList)) with
      | .str s =>
        if s = ("strong_fit").toList ∨ s = ("good_fit").toList ∨
           s = ("partial_fit").toList ∨ s = ("weak_fit").toList
        then .str s else .str (("partial_fit").toList)
      | _ => .str (("partial_fit").toList)
    match pySlice? (jget result (("matched_skills").toList) (.arr [])) 20 with
    | none => none
    | some matched =>
      match pySlice? (jget result (("missing_skills").toList) (.arr [])) 15 with
      | none => none
      | some missing =>
        match pySlice? (jget result (("strengths").toList) (.arr [])) 10 with
        | none => none
        | some strengths =>
          match pySlice? (jget result (("improvements").toList) (.arr [])) 10 with
          | none => none
          | some improvements =>
            some (.obj
              [(("fitness_score").toList, .num fitness_score),
               (("verdict").toList, verdict),
               (("matched_skills").toList, matched),
               (("missing_skills").toList, missing),
               (("strengths").toList, strengths),
               (("improvements").toList, improvements),
               (("detailed_feedback").toList,
                 .str ((pyStr (jget result (("detailed_feedback").toList) (.str []))).take 5000))])

/-- `fitness_normalize` on an arbitrary parsed value (`.get` on a non-dict
raises, hence `none`). -/
def fitness_normalize_v : JVal → Option JVal
  | .obj kvs => fitness_normalize kvs
  | _ => none

/-- What `fitness_scorer_node` returns to the caller. -/
inductive FitnessOut where
  /-- `\x7b"fitness_result": ...\x7d` — the normalized result. -/
  | ok (fitness_result : JVal)
  /-- `fitness_result = None`, errors extended with
  `"Failed to parse fitness evaluation"` (lines 138–142). -/
  | parseFailed (errors : List (List Char))
  /-- the generic `except` path (lines 163–168): `fitness_result = None`,
  errors extended with `"Fitness evaluation failed: ..."`. -/
  | excFailed (errors : List (List Char))

/-- `fitness_scorer_node`'s retry loop: two attempts at JSON, the
parse-failure error return after the second, normalization on success; a
transport error raised by the generator escapes to the generic handler. -/
def fitness_scorer_runT (stateErrors : List (List Char))
    (g : ℕ → Except (List Char) (List Char)) : FitnessOut :=
  match g 0 with
  | .error e =>
    .excFailed (stateErrors ++ [(("Fitness evaluation failed: ").toList) ++ e.take 200])
  | .ok r0 =>
    match fitnessTryParse r0 with
    | some v =>
      (match fitness_normalize_v v with
       | some out => .ok out
       | none => .excFailed stateErrors)
    | none =>
      match g 1 with
      | .error e =>
        .excFailed (stateErrors ++ [(("Fitness evaluation failed: ").toList) ++ e.take 200])
      | .ok r1 =>
        match fitnessTryParse r1 with
        | some v =>
          (match fitness_normalize_v v with
           | some out => .ok out
           | none => .excFailed stateErrors)
        | none =>
          .parseFailed (stateErrors ++ [(("Failed to parse fitness evaluation").toList)])

/-- `fitness_scorer_node` with a transport-error-free generator. -/
def fitness_scorer_run (stateErrors : List (List Char)) (g : ℕ → List Char) :
    FitnessOut :=
  fitness_scorer_runT stateErrors (fun n => .ok (g n))

/-- What `capstone_generator_node` returns. -/
inductive CapstoneOut where
  /-- `generated_projects`, phase `capstone_generation_complete`, no error key. -/
  | ok (generated_projects : JVal)
  /-- the generic `except` path (errors + `capstone_generation_failed`). -/
  | excFailed

/-- `capstone_generator_node`'s loop: one response up front, one re-invocation
after a failed first parse, empty project list when both fail; a top-level
key `projects` is preferred, a bare list accepted, anything else empty. -/
def capstone_run (g : ℕ → List Char) : CapstoneOut :=
  let parsed? :=
    match capstoneTryParse (g 0) with
    | some v => some v
    | none => capstoneTryParse (g 1)
  let projects : JVal :=
    match parsed? with
    | none => .arr []
    | some p =>
      match p with
      | .obj kvs =>
        if (kvs.map Prod.fst).contains (("projects").toList) then
          jget kvs (("projects").toList) .null
        else .arr []
      | .arr xs => .arr xs
      | _ => .arr []
  -- `len(projects)` in the completion log raises on a non-sized value
  match pyLen? projects with
  | some _ => .ok projects
  | none => .excFailed

/-- Content up to (excluding) the first ` ``` ` fence, when one occurs. -/
def splitBeforeFence : List Char → Option (List Char)
  | [] => none
  | '`' :: '`' :: '`' :: _ => some []
  | c :: rest => (splitBeforeFence rest).map (fun inner => c :: inner)

/-- The captured group of `re.search(r"```(?:json)?\s*\n?(.*?)\n?```", s,
re.DOTALL)` in `_parse_scaffold_response`, modelled up to surrounding
whitespace (the caller strips the group before use, so the `\s*\n?` edges
are left inside the capture here): first opening fence with its optional
literal `json` tag, lazily up to the next fence. -/
def fenceInner : List Char → Option (List Char)
  | [] => none
  | '`' :: '`' :: '`' :: rest =>
    let afterTag :=
      if (("json").toList).isPrefixOf rest then rest.drop 4 else rest
    (match splitBeforeFence afterTag with
     | some inner => some inner
     | none => fenceInner ('`' :: '`' :: rest))
  | _ :: rest => fenceInner rest

/-- The two exception classes distinguished by `scaffold_generator_node`'s
handlers. -/
inductive ScaffoldParseErr where
  | jsonDecode
  | valueErr

/-- `_parse_scaffold_response` of `scaffold_node.py`: extract JSON from an
optional markdown fence, `json.loads` it (a parse error raises
`json.JSONDecodeError`), and require a dict with a list-valued `files` key
(otherwise `ValueError`). -/
def parse_scaffold_response (content : List Char) :
    Except ScaffoldParseErr (List (List Char × JVal)) :=
  let cleaned := pyStrip content
  let cleaned :=
    match fenceInner cleaned with
    | some inner => pyStrip inner
    | none => cleaned
  match json_loads cleaned with
  | none => .error .jsonDecode
  | some v =>
    match v with
    | .obj kvs =>
      (match jget? kvs (("files").toList) with
       | some (.arr _) => .ok kvs
       | _ => .error .valueErr)
    | _ => .error .valueErr

/-- What `scaffold_generator_node` returns. -/
inductive ScaffoldOut where
  /-- the success return (lines 201–207) carrying the validated scaffold. -/
  | ok (validated : JVal)
  /-- the `json.JSONDecodeError` handler (lines 209–215): errors
  `["Scaffold generation failed: invalid LLM response"]`, phase
  `scaffold_generation_failed`. -/
  | jsonFailed
  /-- the generic handler (lines 216–222). -/
  | excFailed

/-- `scaffold_generator_node`'s single-attempt parse-and-validate flow over
one raw response. -/
def scaffold_generator_run (response : List Char) : ScaffoldOut :=
  match parse_scaffold_response response with
  | .error .jsonDecode => .jsonFailed
  | .error .valueErr => .excFailed
  | .ok kvs =>
    match validate_scaffold kvs with
    | none => .excFailed
    | some validated => .ok validated

/-! ## Company-type modifiers (`company_node.py`) -/

/-- Rational addition via `mkRat` (equal to `Rat.add`, but kernel-computable
in proofs by `rfl`/`decide`). -/
def qadd (a b : ℚ) : ℚ := mkRat (a.num * b.den + b.num * a.den) (a.den * b.den)

/-- Python `sub in s` substring test. -/
def isSubstr (pat : List Char) : List Char → Bool
  | [] => pat.isEmpty
  | c :: rest => pat.isPrefixOf (c :: rest) || isSubstr pat rest

/-- One archetype's entry of `COMPANY_MODIFIERS`. -/
structure ModifierTable where
  emphasis_areas : List (List Char)
  weight_adjustments : List (List Char × ℚ)
  portfolio_focus : List Char

/-- The `"startup"` modifier table. -/
def STARTUP_MODIFIERS : ModifierTable where
  emphasis_areas :=
    [("Shipping speed").toList, ("Full-stack capability").toList,
     ("MVP mindset").toList, ("Wearing multiple hats").toList,
     ("Rapid iteration").toList]
  weight_adjustments :=
    [(("full-stack").toList, 3), (("shipping speed").toList, 3),
     (("react").toList, mkRat 3 2), (("fastapi").toList, mkRat 3 2),
     (("docker").toList, 2), (("ci/cd").toList, mkRat 3 2),
     (("system design").toList, -1)]
  portfolio_focus :=
    ("Show end-to-end projects shipped solo. Emphasize speed, deployment, and user-facing features.").toList

/-- The `"mid_level"` modifier table (also the default for unknown types). -/
def MID_LEVEL_MODIFIERS : ModifierTable where
  emphasis_areas :=
    [("Clean architecture").toList, ("Code quality").toList, ("Testing").toList,
     ("Design patterns").toList, ("Team collaboration").toList]
  weight_adjustments :=
    [(("clean code").toList, 3), (("testing").toList, mkRat 5 2),
     (("design patterns").toList, 2), (("code review").toList, mkRat 3 2),
     (("documentation").toList, mkRat 3 2)]
  portfolio_focus :=
    ("Show well-structured projects with tests, CI, and clean code. Emphasize maintainability, modularity, and code quality metrics.").toList

/-- The `"faang"` modifier table. -/
def FAANG_MODIFIERS : ModifierTable where
  emphasis_areas :=
    [("System design").toList, ("Scalability").toList,
     ("Data structures & algorithms").toList, ("Distributed systems").toList,
     ("Performance optimization").toList]
  weight_adjustments :=
    [(("system design").toList, 4), (("scalability").toList, mkRat 7 2),
     (("algorithms").toList, 3), (("distributed systems").toList, mkRat 5 2),
     (("performance").toList, 2), (("kubernetes").toList, mkRat 3 2)]
  portfolio_focus :=
    ("Show projects that demonstrate scale thinking. Include architecture diagrams, load considerations, and system design documentation.").toList

/-- The `"research"` modifier table. -/
def RESEARCH_MODIFIERS : ModifierTable where
  emphasis_areas :=
    [("Novel approach").toList, ("Rigorous evaluation").toList,
     ("Paper-grade documentation").toList, ("Reproducibility").toList,
     ("Experiment tracking").toList]
  weight_adjustments :=
    [(("machine learning").toList, 3), (("evaluation metrics").toList, mkRat 5 2),
     (("reproducibility").toList, 2), (("research methodology").toList, 2),
     (("python").toList, 1)]
  portfolio_focus :=
    ("Show projects with clear problem formulation, novel approaches, ablation studies, and paper-quality writeups.").toList

/-- The `"enterprise"` modifier table. -/
def ENTERPRISE_MODIFIERS : ModifierTable where
  emphasis_areas :=
    [("Security").toList, ("Reliability").toList, ("Compliance").toList,
     ("Error handling").toList, ("Logging & monitoring").toList,
     ("Documentation").toList]
  weight_adjustments :=
    [(("security").toList, 4), (("reliability").toList, 3),
     (("error handling").toList, mkRat 5 2), (("logging").toList, 2),
     (("monitoring").toList, 2), (("documentation").toList, 2),
     (("compliance").toList, mkRat 3 2)]
  portfolio_focus :=
    ("Show projects with robust error handling, security headers, structured logging, auth, and deployment pipelines.").toList

/-- `COMPANY_MODIFIERS` of `company_node.py` (archetype → modifier table). -/
def COMPANY_MODIFIERS : List (List Char × ModifierTable) :=
  [(("startup").toList, STARTUP_MODIFIERS),
   (("mid_level").toList, MID_LEVEL_MODIFIERS),
   (("faang").toList, FAANG_MODIFIERS),
   (("research").toList, RESEARCH_MODIFIERS),
   (("enterprise").toList, ENTERPRISE_MODIFIERS)]

/-- `COMPANY_MODIFIERS.get(company_type, COMPANY_MODIFIERS["mid_level"])`. -/
def modifiersFor (ctLower : List Char) : ModifierTable :=
  match COMPANY_MODIFIERS.lookup ctLower with
  | some m => m
  | none => MID_LEVEL_MODIFIERS

/-- The weight-adjustment loop applied to one skill dict (lines 149–159):
each adjustment key that is a substring of the lowercased skill name adds its
value to the current weight (default 5.0), clamped to [0, 10]; `none` models
an exception (non-string name or non-numeric weight under adjustment). -/
def adjustSkillKvs (adjustments : List (List Char × ℚ))
    (kvs : List (List Char × JVal)) : Option (List (List Char × JVal)) :=
  match jget kvs (("name").toList) (.str []) with
  | .str nm =>
    let nameLower := nm.map Char.toLower
    adjustments.foldl
      (fun acc kv => acc.bind (fun cur =>
        if isSubstr kv.1 nameLower then
          match pyNum? (jget cur (("weight").toList) (.num 5)) with
          | some w => some (setKey cur (("weight").toList) (.num (max 0 (min 10 (qadd w kv.2)))))
          | none => none
        else some cur))
      (some kvs)
  | _ => none

/-- `adjustSkillKvs` on an arbitrary skill value (non-dicts raise). -/
def adjustSkillV (adjustments : List (List Char × ℚ)) : JVal → Option JVal
  | .obj kvs => (adjustSkillKvs adjustments kvs).map .obj
  | _ => none

/-- The sort key `s.get("weight", 0)` (numeric values only; the sort raises
on mixed types). -/
def sortKey? : JVal → Option ℚ
  | .obj kvs => pyNum? (jget kvs (("weight").toList) (.num 0))
  | _ => none

/-- Stable insertion preserving descending key order (`x` goes in front of
the first element whose key is `≤` its own). -/
def insertByKeyDesc (key : JVal → ℚ) (x : JVal) : List JVal → List JVal
  | [] => [x]
  | y :: ys => if key y ≤ key x then x :: y :: ys else y :: insertByKeyDesc key x ys

/-- Python's stable `list.sort(key=..., reverse=True)`. -/
def sortByKeyDesc (key : JVal → ℚ) : List JVal → List JVal
  | [] => []
  | x :: xs => insertByKeyDesc key x (sortByKeyDesc key xs)

/-- What `company_logic_node` returns. -/
structure CompanyOut where
  skill_profile : JVal
  company_modifiers : JVal
  current_phase : List Char

/-- The `company_modifiers` dict the node returns. -/
def modifiersJ (ct : List Char) (m : ModifierTable) : JVal :=
  .obj
    [(("company_type").toList, .str ct),
     (("emphasis_areas").toList, .arr (m.emphasis_areas.map .str)),
     (("weight_adjustments").toList,
       .obj (m.weight_adjustments.map (fun kv => (kv.1, JVal.num kv.2)))),
     (("portfolio_focus").toList, .str m.portfolio_focus)]

/-- The body of `company_logic_node` once the modifier table `m` has been
looked up for the (lowercased) company type `ct`: the falsy-profile early
return, the weight-adjustment loop, and the stable descending sort; `none`
models an uncaught exception on malformed skills. -/
def company_run_core (m : ModifierTable) (ct : List Char) (profile : JVal) :
    Option CompanyOut :=
  if pyFalsy profile then
    some ⟨.obj [], modifiersJ ct m, ("company_logic_complete").toList⟩
  else
    match profile with
    | .obj kvs =>
      (match jget kvs (("skills").toList) (.arr []) with
       | .arr skills =>
         (match skills.mapM (adjustSkillV m.weight_adjustments) with
          | none => none
          | some adjusted =>
            match adjusted.mapM sortKey? with
            | none => none
            | some _ =>
              let sorted := sortByKeyDesc (fun s => (sortKey? s).getD 0) adjusted
              some ⟨.obj (setKey kvs (("skills").toList) (.arr sorted)),
                    modifiersJ ct m, ("company_logic_complete").toList⟩)
       | _ => none)
    | _ => none

/-- `company_logic_node`: lowercase the company type, look up its modifier
table (defaulting to `mid_level`), and apply it to the skill profile. -/
def company_logic_run (company_type : List Char) (profile : JVal) :
    Option CompanyOut :=
  let ct := company_type.map Char.toLower
  company_run_core (modifiersFor ct) ct profile

/-! ## Pydantic schemas and `_safe_parse_skill_profile` (`api/v1/jd.py`) -/

/-- `schemas/jd.py` `Skill` (name, category, source strings; weight a float
clamped nowhere but *constrained* to `0.0 ≤ w ≤ 10.0`). -/
structure Skill where
  name : List Char
  category : List Char
  weight : ℚ
  source : List Char

/-- `schemas/jd.py` `EngineeringExpectation`. -/
structure EngExpectation where
  dimension : List Char
  importance : ℚ
  description : List Char

/-- `schemas/jd.py` `SkillProfile`. -/
structure SkillProfile where
  skills : List Skill
  experience_level : List Char
  domain : List Char
  engineering_expectations : List EngExpectation
  key_responsibilities : List (List Char)
  summary : List Char

/-- The `ExperienceLevel` enum members. -/
def EXPERIENCE_LEVELS : List (List Char) :=
  [("intern").toList, ("junior").toList, ("mid").toList,
   ("senior").toList, ("staff").toList, ("principal").toList]

/-- One iteration of the skill loop in `_safe_parse_skill_profile`: build a
`Skill` from one raw entry; any exception — including the pydantic
out-of-range rejection of a weight outside `[0, 10]` — drops the entry
(`none`). -/
def parseSkill? (s : JVal) : Option Skill :=
  match s with
  | .obj kvs =>
    (match pyFloat? (jget kvs (("weight").toList) (.num 5)) with
     | none => none
     | some w =>
       match jget kvs (("name").toList) (.str (("Unknown").toList)),
             jget kvs (("category").toList) (.str (("concept").toList)),
             jget kvs (("source").toList) (.str (("inferred").toList)) with
       | .str nm, .str cat, .str src =>
         if 0 ≤ w ∧ w ≤ 10 then some ⟨nm, cat, w, src⟩ else none
       | _, _, _ => none)
  | _ => none

/-- One iteration of the expectation loop in `_safe_parse_skill_profile`. -/
def parseExpectation? (e : JVal) : Option EngExpectation :=
  match e with
  | .obj kvs =>
    (match pyFloat? (jget kvs (("importance").toList) (.num 5)) with
     | none => none
     | some imp =>
       match jget kvs (("dimension").toList) (.str (("Unknown").toList)),
             jget kvs (("description").toList) (.str []) with
       | .str dim, .str desc =>
         if 0 ≤ imp ∧ imp ≤ 10 ∧ desc.length ≤ 500 then some ⟨dim, imp, desc⟩ else none
       | _, _ => none)
  | _ => none

/-- A pydantic `list[str]` field value. -/
def asStrList : JVal → Option (List (List Char))
  | .arr xs => xs.mapM (fun v => match v with | .str s => some s | _ => none)
  | _ => none

/-- `_safe_parse_skill_profile` of `api/v1/jd.py`: accept a dict, JSON
string, or the jd-node fallback with JSON embedded in `summary`; build each
`Skill`/`EngineeringExpectation` defensively (invalid entries dropped); the
final `SkillProfile(...)` construction itself can still raise (`none`) on an
invalid experience level, non-string domain/summary or malformed
responsibilities. -/
def safe_parse_skill_profile (raw0 : JVal) : Option SkillProfile :=
  let raw : List (List Char × JVal) :=
    match raw0 with
    | .str s => (match try_extract_json s with | some kvs => kvs | none => [])
    | .obj kvs => kvs
    | _ => []
  let raw :=
    if pyFalsy (jget raw (("skills").toList) .null) then
      match jget? raw (("summary").toList) with
      | some (.str sm) =>
        (match try_extract_json sm with
         | some kvs2 =>
           (match jget? kvs2 (("skills").toList) with
            | some (.arr (_ :: _)) => kvs2
            | _ => raw)
         | none => raw)
      | _ => raw
    else raw
  match iterElems (jget raw (("skills").toList) (.arr [])) with
  | none => none
  | some skillVals =>
    let skills := skillVals.filterMap parseSkill?
    match iterElems (jget raw (("engineering_expectations").toList) (.arr [])) with
    | none => none
    | some expVals =>
      let expectations := expVals.filterMap parseExpectation?
      match jget raw (("experience_level").toList) (.str (("mid").toList)),
            jget raw (("domain").toList) (.str (("Software Engineering").toList)),
            jget raw (("summary").toList) (.str (("Analysis complete.").toList)) with
      | .str els, .str doms, .str sms =>
        if decide (els ∈ EXPERIENCE_LEVELS) then
          match asStrList (jget raw (("key_responsibilities").toList) (.arr [])) with
          | some krs => some ⟨skills, els, doms, expectations, krs, sms.take 8000⟩
          | none => none
        else none
      | _, _, _ => none

/-! ## Helper lemmas -/

/-- Field projection on a JSON object (`.null` elsewhere). -/
def jfield (v : JVal) (k : List Char) : JVal :=
  match v with
  | .obj kvs => jget kvs k .null
  | _ => .null

/-- The `summary` string of a JSON object (empty elsewhere). -/
def summaryOf (v : JVal) : List Char :=
  match jfield v (("summary").toList) with
  | .str s => s
  | _ => []

theorem lookup_none_of_notMem {α β : Type} [BEq α] [LawfulBEq α]
    (l : List (α × β)) (k : α) (h : k ∉ l.map Prod.fst) : l.lookup k = none := by
  induction l with
  | nil => rfl
  | cons p rest ih =>
    simp only [List.map_cons, List.mem_cons, not_or] at h
    simp only [List.lookup]
    rw [show (k == p.1) = false from beq_eq_false_iff_ne.mpr h.1]
    exact ih h.2

theorem mem_of_mem_dropWhile {p : Char → Bool} {a : Char} {l : List Char}
    (h : a ∈ l.dropWhile p) : a ∈ l :=
  (List.dropWhile_sublist p).mem h

theorem mem_of_mem_pyStrip {a : Char} {s : List Char} (h : a ∈ pyStrip s) : a ∈ s := by
  unfold pyStrip pyRStrip pyLStrip at h
  rw [List.mem_reverse] at h
  exact mem_of_mem_dropWhile (List.mem_reverse.mp (mem_of_mem_dropWhile h))

theorem mem_of_mem_subLeadFenceTag {a : Char} {s : List Char}
    (h : a ∈ subLeadFenceTag s) : a ∈ s := by
  unfold subLeadFenceTag at h
  split at h
  · next rest =>
    have := mem_of_mem_dropWhile (mem_of_mem_dropWhile h)
    simp [List.mem_cons]
    tauto
  · exact h

theorem mem_of_mem_subTrailFence {a : Char} {s : List Char}
    (h : a ∈ subTrailFence s) : a ∈ s := by
  unfold subTrailFence at h
  split at h
  · next rest heq =>
    rw [List.mem_reverse] at h
    have h2 : a ∈ s.reverse.dropWhile isPySpace := by
      rw [heq]; simp [List.mem_cons]; tauto
    exact List.mem_reverse.mp (mem_of_mem_dropWhile h2)
  · exact h

theorem mem_of_mem_stripFences {a : Char} {s : List Char}
    (h : a ∈ strip_markdown_fences s) : a ∈ s := by
  unfold strip_markdown_fences at h
  exact mem_of_mem_pyStrip
    (mem_of_mem_subLeadFenceTag (mem_of_mem_subTrailFence (mem_of_mem_pyStrip h)))

/-! ## Concrete inputs used by the claim theorems -/

/-- A plain-prose model response containing no JSON at all. -/
def noJsonResponse : List Char := ("I cannot help with that request").toList

/-- The end-to-end scenario response: fenced JSON with one skill of weight 15. -/
def pythonWeight15Response : List Char :=
  ("```json\n\x7b\"skills\":[\x7b\"name\":\"Python\",\"weight\":15\x7d]\x7d\n```").toList

/-- First garbage text for the determinism claims. -/
def garbageA : List Char := ("model refused to answer").toList

/-- Second, different garbage text. -/
def garbageB : List Char := ("asking the model again did not help").toList

/-- A valid JSON skill profile, as a raw response. -/
def goodProfileResponse : List Char :=
  ("\x7b\"skills\": [\x7b\"name\": \"Python\", \"weight\": 7\x7d]\x7d").toList

/-- A transport-error message. -/
def transportMsg : List Char := ("Request timed out after 60 seconds").toList

/-! ## Claim theorems -/

/-- C1 (counterexample): with a generator that returns unparseable text on
both attempts, the fitness task does NOT return a fallback result — it
returns `fitness_result = None` and reports
`"Failed to parse fitness evaluation"` in the state's error list, i.e. the
soft parse failure is surfaced as an error to the caller. -/
theorem C1_counterexample :
    fitness_scorer_run [] (fun _ => noJsonResponse) =
      .parseFailed [("Failed to parse fitness evaluation").toList] := rfl

/-- C1 (amended): when JSON extraction fails on every attempt, only some
generation tasks return a deterministic fallback without error (the capstone
task returns an empty project list and no error entry); the fitness task
reports the parse failure in the state's error list with a null result, and
the scaffold task returns an error entry and the phase
`scaffold_generation_failed`. -/
theorem C1_amended (es : List (List Char)) (g : ℕ → List Char)
    (hcap : ∀ n, capstoneTryParse (g n) = none)
    (hfit : ∀ n, fitnessTryParse (g n) = none)
    (hsc : parse_scaffold_response (g 0) = .error .jsonDecode) :
    capstone_run g = .ok (.arr []) ∧
    fitness_scorer_run es g =
      .parseFailed (es ++ [("Failed to parse fitness evaluation").toList]) ∧
    scaffold_generator_run (g 0) = .jsonFailed := by
  refine ⟨?_, ?_, ?_⟩
  · simp [capstone_run, hcap, pyLen?]
  · simp [fitness_scorer_run, fitness_scorer_runT, hfit]
  · simp [scaffold_generator_run, hsc]

/-- C1 (witness): the amended behaviour at the concrete all-garbage
generator. -/
theorem C1_amended_witness :
    capstone_run (fun _ => noJsonResponse) = .ok (.arr []) ∧
    fitness_scorer_run [] (fun _ => noJsonResponse) =
      .parseFailed ([] ++ [("Failed to parse fitness evaluation").toList]) ∧
    scaffold_generator_run noJsonResponse = .jsonFailed :=
  C1_amended [] (fun _ => noJsonResponse) (fun _ => rfl) (fun _ => rfl) rfl

/-- C2: `_sanitize_path` returns `none` on the three attack paths and passes
`src/main.py` through; and in general it returns `none` exactly when the
trimmed path (whitespace stripped, leading slashes/backslashes removed) is
empty or longer than 300 characters, contains a forbidden or non-allow-listed
dot-prefixed segment, or ends in a filename that has an extension outside the
allow-list (extensionless filenames pass this check). -/
theorem C2_sanitize_path :
    sanitize_path (("../../etc/passwd").toList) = none ∧
    sanitize_path (("node_modules/x/y.js").toList) = none ∧
    sanitize_path ((".git/config").toList) = none ∧
    sanitize_path (("src/main.py").toList) = some (("src/main.py").toList) ∧
    ∀ path : List Char,
      sanitize_path path = none ↔
        (pathNorm path = [] ∨ 300 < (pathNorm path).length ∨
         (∃ seg ∈ splitSeps (pathNorm path), badSegment seg = true) ∨
         ('.' ∈ (splitSeps (pathNorm path)).getLastD [] ∧
          extOf ((splitSeps (pathNorm path)).getLastD []) ∉ ALLOWED_EXTENSIONS)) := by
  refine ⟨rfl, rfl, rfl, rfl, ?_⟩
  intro path
  simp only [sanitize_path]
  split_ifs with h1 h2 h3
  · exact iff_of_true rfl (h1.elim Or.inl (fun h => Or.inr (Or.inl h)))
  · exact iff_of_true rfl (Or.inr (Or.inr (Or.inl (by simpa using h2))))
  · exact iff_of_true rfl (Or.inr (Or.inr (Or.inr h3)))
  · refine iff_of_false (by simp) ?_
    rintro (h | h | h | h)
    · exact h1 (Or.inl h)
    · exact h1 (Or.inr h)
    · exact h2 (by simpa using h)
    · exact h3 h

/-- C4 (counterexample): the jd-analysis fallback is NOT the same structure
for every garbage generator — two different garbage texts produce different
fallback profiles (the `summary` field embeds the raw response). -/
theorem C4_counterexample :
    jd_analysis_run (("Backend Engineer").toList) (fun _ => garbageA) ≠
      jd_analysis_run (("Backend Engineer").toList) (fun _ => garbageB) := by
  intro h
  have h2 := congrArg summaryOf h
  rw [show summaryOf (jd_analysis_run (("Backend Engineer").toList) (fun _ => garbageA)) =
        garbageA.take 8000 from rfl,
      show summaryOf (jd_analysis_run (("Backend Engineer").toList) (fun _ => garbageB)) =
        garbageB.take 8000 from rfl] at h2
  exact absurd h2 (by decide)

/-- C4 (amended): the fallback is deterministic in every field except
`summary`: when both jd parse attempts fail the node returns the fixed
profile whose only response-dependent field is `summary` (the first 8000
characters of the final raw response); likewise `_parse_scorecard` falls back
to `scorecardFallback` over the cleaned content, whose only
content-dependent field is `summary` (its first 500 characters). -/
theorem C4_amended (role : List Char) (g : ℕ → List Char) (c : List Char)
    (h0 : jdTryParse (g 0) = none) (h1 : jdTryParse (g 1) = none)
    (hc1 : json_loads (scorecardClean c) = none)
    (hc2 : scorecardSlice (scorecardClean c) = none) :
    jd_analysis_run role g = .obj
      [(("skills").toList, .arr []),
       (("experience_level").toList, .str (("mid").toList)),
       (("domain").toList, .str role),
       (("engineering_expectations").toList, .arr []),
       (("key_responsibilities").toList, .arr []),
       (("summary").toList, .str ((g 1).take 8000))] ∧
    parse_scorecard c = scorecardFallback (scorecardClean c) := by
  constructor
  · simp [jd_analysis_run, jd_analysis_runT, h0, h1, jdFallback]
  · simp [parse_scorecard, hc1, hc2]

/-- C4 (witness): the amended fallback shape at a concrete garbage run. -/
theorem C4_amended_witness :
    jd_analysis_run (("Backend Engineer").toList) (fun _ => garbageA) = .obj
      [(("skills").toList, .arr []),
       (("experience_level").toList, .str (("mid").toList)),
       (("domain").toList, .str (("Backend Engineer").toList)),
       (("engineering_expectations").toList, .arr []),
       (("key_responsibilities").toList, .arr []),
       (("summary").toList, .str (garbageA.take 8000))] ∧
    parse_scorecard garbageA = scorecardFallback (scorecardClean garbageA) :=
  C4_amended (("Backend Engineer").toList) (fun _ => garbageA) garbageA rfl rfl rfl rfl

/-- C5 (counterexample): a transport error on the FIRST (non-final) attempt is
surfaced to the caller at once — the node does not proceed to the second
attempt, even though the second response would have parsed. -/
theorem C5_counterexample :
    jd_analysis_runT (("Backend Engineer").toList)
        (fun n => if n = 0 then .error transportMsg else .ok goodProfileResponse) =
      .failed [(("JD analysis failed: ").toList) ++ transportMsg] ∧
    jdTryParse goodProfileResponse =
      some (.obj [(("skills").toList,
        .arr [.obj [(("name").toList, .str (("Python").toList)),
                    (("weight").toList, .num 7)]])]) :=
  ⟨rfl, rfl⟩

/-- C5 (amended): a transport-level generator failure on ANY attempt —
whether on the first attempt, or on the final attempt after the first
response failed to parse — aborts the retry loop immediately and surfaces
the transport error to the caller; the attempt budget is never continued
after a transport failure. -/
theorem C5_amended (role : List Char) (es : List (List Char)) (e : List Char)
    (g g' : ℕ → Except (List Char) (List Char)) :
    (g 0 = .error e →
      jd_analysis_runT role g = .failed [(("JD analysis failed: ").toList) ++ e]) ∧
    (∀ r0, g 0 = .ok r0 → jdTryParse r0 = none → g 1 = .error e →
      jd_analysis_runT role g = .failed [(("JD analysis failed: ").toList) ++ e]) ∧
    (g' 0 = .error e →
      fitness_scorer_runT es g' =
        .excFailed (es ++ [(("Fitness evaluation failed: ").toList) ++ e.take 200])) ∧
    (∀ r0, g' 0 = .ok r0 → fitnessTryParse r0 = none → g' 1 = .error e →
      fitness_scorer_runT es g' =
        .excFailed (es ++ [(("Fitness evaluation failed: ").toList) ++ e.take 200])) := by
  refine ⟨?_, ?_, ?_, ?_⟩
  · intro hg0
    simp [jd_analysis_runT, hg0]
  · intro r0 hg0 hp hg1
    simp [jd_analysis_runT, hg0, hp, hg1]
  · intro hg0
    simp [fitness_scorer_runT, hg0]
  · intro r0 hg0 hp hg1
    simp [fitness_scorer_runT, hg0, hp, hg1]

/-- C5 (witness): the amended behaviour both at a concrete first-attempt
transport failure and at a concrete final-attempt transport failure after an
unparseable first response. -/
theorem C5_amended_witness :
    (jd_analysis_runT (("Backend Engineer").toList) (fun _ => .error transportMsg) =
      .failed [(("JD analysis failed: ").toList) ++ transportMsg]) ∧
    (jd_analysis_runT (("Backend Engineer").toList)
        (fun n => if n = 0 then .ok noJsonResponse else .error transportMsg) =
      .failed [(("JD analysis failed: ").toList) ++ transportMsg]) ∧
    (fitness_scorer_runT [] (fun _ => .error transportMsg) =
      .excFailed ([] ++ [(("Fitness evaluation failed: ").toList) ++ transportMsg.take 200])) ∧
    (fitness_scorer_runT []
        (fun n => if n = 0 then .ok noJsonResponse else .error transportMsg) =
      .excFailed ([] ++ [(("Fitness evaluation failed: ").toList) ++ transportMsg.take 200])) :=
  ⟨(C5_amended (("Backend Engineer").toList) [] transportMsg
      (fun _ => .error transportMsg) (fun _ => .error transportMsg)).1 rfl,
   (C5_amended (("Backend Engineer").toList) [] transportMsg
      (fun n => if n = 0 then .ok noJsonResponse else .error transportMsg)
      (fun n => if n = 0 then .ok noJsonResponse else .error transportMsg)).2.1
     noJsonResponse rfl rfl rfl,
   (C5_amended (("Backend Engineer").toList) [] transportMsg
      (fun _ => .error transportMsg) (fun _ => .error transportMsg)).2.2.1 rfl,
   (C5_amended (("Backend Engineer").toList) [] transportMsg
      (fun n => if n = 0 then .ok noJsonResponse else .error transportMsg)
      (fun n => if n = 0 then .ok noJsonResponse else .error transportMsg)).2.2.2
     noJsonResponse rfl rfl rfl⟩

/-- C6 (counterexample): a missing `fitness_score` (a 0–100 bounded field)
defaults to 0 — the minimum of its range — not to the midpoint 50. -/
theorem C6_counterexample :
    jfield ((fitness_normalize_v
        (.obj [(("verdict").toList, .str (("good_fit").toList))])).getD .null)
      (("fitness_score").toList) = .num 0 ∧
    JVal.num 0 ≠ JVal.num 50 := by
  refine ⟨rfl, ?_⟩
  intro h
  injection h with h'
  exact absurd h' (by norm_num)

/-- C6 (amended): 0–10 bounded numeric fields do default to their midpoint
5.0 when missing (every dimension score and the overall score of the
scorecard fallback; the skill weight in `_safe_parse_skill_profile`; the
expectation importance), but the 0–100 fitness score defaults to 0 — the
range minimum — when missing from a parsed result. -/
theorem C6_amended :
    (∀ c : List Char,
      jfield (jfield (scorecardFallback c) (("code_quality").toList)) (("score").toList) = .num 5 ∧
      jfield (jfield (scorecardFallback c) (("test_coverage").toList)) (("score").toList) = .num 5 ∧
      jfield (jfield (scorecardFallback c) (("complexity").toList)) (("score").toList) = .num 5 ∧
      jfield (jfield (scorecardFallback c) (("structure").toList)) (("score").toList) = .num 5 ∧
      jfield (jfield (scorecardFallback c) (("deployment_readiness").toList)) (("score").toList) = .num 5 ∧
      jfield (scorecardFallback c) (("overall_score").toList) = .num 5) ∧
    (∀ nm : List Char, parseSkill? (.obj [(("name").toList, .str nm)]) =
      some ⟨nm, ("concept").toList, 5, ("inferred").toList⟩) ∧
    (∀ dm : List Char, parseExpectation? (.obj [(("dimension").toList, .str dm)]) =
      some ⟨dm, 5, []⟩) ∧
    (fitness_normalize []).map (fun v => jfield v (("fitness_score").toList)) =
      some (.num 0) :=
  ⟨fun _ => ⟨rfl, rfl, rfl, rfl, rfl, rfl⟩, fun _ => rfl, fun _ => rfl, rfl⟩

/-- C7 (counterexample): for the fenced response with one skill
`Python`/weight 15 and a `[0,10]` weight bound, the end-to-end sanitized
result (jd node → company node with the default `mid_level` archetype →
`_safe_parse_skill_profile`) contains ZERO skills: the out-of-range weight is
rejected by the `Skill` validator and the entry dropped, not clamped to
10.0. -/
theorem C7_counterexample :
    (company_logic_run (("mid_level").toList)
        (jd_analysis_run (("Backend Engineer").toList) (fun _ => pythonWeight15Response))).map
      (fun out => (safe_parse_skill_profile out.skill_profile).map SkillProfile.skills)
      = some (some []) := rfl

/-- C7 (amended): the weight-15 `Python` skill is dropped, not clamped: the
pydantic `Skill` model rejects a weight outside `[0, 10]` (so
`_safe_parse_skill_profile` skips the entry), and the end-to-end sanitized
result for the scenario contains no skill at all. -/
theorem C7_amended :
    parseSkill? (.obj [(("name").toList, .str (("Python").toList)),
                       (("weight").toList, .num 15)]) = none ∧
    (company_logic_run (("mid_level").toList)
        (jd_analysis_run (("Backend Engineer").toList) (fun _ => pythonWeight15Response))).map
      (fun out => (safe_parse_skill_profile out.skill_profile).map SkillProfile.skills)
      = some (some []) :=
  ⟨rfl, rfl⟩

/-- C8 (counterexample): `_try_extract_json` does NOT succeed on a JSON
object followed by arbitrary prose: when the trailing prose contains a
closing brace, the first-brace-to-last-brace slice is not valid JSON and
extraction returns absent — while the same object with brace-free trailing
prose extracts fine. -/
theorem C8_counterexample :
    try_extract_json (("see: \x7b\"a\": 1\x7d ... all done :\x7d").toList) = none ∧
    try_extract_json (("see: \x7b\"a\": 1\x7d ... all done").toList) =
      some [(("a").toList, .num 1)] :=
  ⟨rfl, rfl⟩

/-- C8 (amended): `_try_extract_json` succeeds on a bare JSON object, on a
fenced object with a `json` tag, and on an object surrounded by prose whose
last closing brace is the object's own; it returns absent (never throwing)
on any input without an opening brace, on any input shorter than 10
characters (without attempting a parse), and on truncated/unbalanced
JSON. -/
theorem C8_amended :
    try_extract_json (("\x7b\"skills\": [], \"count\": 1\x7d").toList) =
      some [(("skills").toList, .arr []), (("count").toList, .num 1)] ∧
    try_extract_json (("```json\n\x7b\"skills\": []\x7d\n```").toList) =
      some [(("skills").toList, .arr [])] ∧
    try_extract_json (("Sure! Here is the result: \x7b\"skills\": []\x7d hope that helps").toList) =
      some [(("skills").toList, .arr [])] ∧
    (∀ s : List Char, s.length < 10 → try_extract_json s = none) ∧
    (∀ s : List Char, '{' ∉ s → try_extract_json s = none) ∧
    try_extract_json (("\x7b\"skills\": [").toList) = none := by
  refine ⟨rfl, rfl, rfl, ?_, ?_, rfl⟩
  · intro s h
    unfold try_extract_json
    rw [if_pos h]
  · intro s hs
    unfold try_extract_json
    split_ifs with h1
    · rfl
    · have hnone : (strip_markdown_fences s).dropWhile (fun c => decide (c ≠ '{')) = [] := by
        rw [List.dropWhile_eq_nil_iff]
        intro c hc
        simp only [decide_eq_true_eq]
        intro hceq
        exact hs (hceq ▸ mem_of_mem_stripFences hc)
      simp only [hnone]
      rfl

/-- C8 (witness): the amended guards at concrete inputs. -/
theorem C8_amended_witness :
    ((("short").toList).length < 10 ∧ try_extract_json (("short").toList) = none) ∧
    ('{' ∉ (("there is no json object in this prose").toList) ∧
      try_extract_json (("there is no json object in this prose").toList) = none) :=
  ⟨⟨by decide, C8_amended.2.2.2.1 (("short").toList) (by decide)⟩,
   ⟨by decide, C8_amended.2.2.2.2.1 (("there is no json object in this prose").toList) (by decide)⟩⟩

/-- C10: when the lowercased company type is not one of the five known
archetypes, `company_logic_node` does not fail on that account: it behaves
exactly as the body run with the `mid_level` modifier table (its emphasis
areas, weight adjustments and portfolio focus). -/
theorem C10_company_default (company_type : List Char) (profile : JVal)
    (h : company_type.map Char.toLower ∉ COMPANY_MODIFIERS.map Prod.fst) :
    company_logic_run company_type profile =
      company_run_core MID_LEVEL_MODIFIERS (company_type.map Char.toLower) profile := by
  unfold company_logic_run modifiersFor
  simp only [lookup_none_of_notMem _ _ h]

/-! ### C3: budget enforcement -/

/-- The UTF-8 content size accumulated by the budget loop for one candidate. -/
def scaffoldSize : JVal → ℕ
  | .obj kvs => utf8Len (pyStr (jget kvs (("content").toList) (.str [])))
  | _ => 0

/-- The accepted-file record the loop builds for a path-valid candidate. -/
def mkScaffoldFile : JVal → JVal
  | .obj kvs => .obj
      [(("path").toList, .str ((sanitize_path
          (match jget kvs (("path").toList) (.str []) with
           | .str p => p
           | _ => [])).getD [])),
       (("content").toList, .str (pyStr (jget kvs (("content").toList) (.str [])))),
       (("language").toList,
         .str ((pyStr (jget kvs (("language").toList) (.str (("text").toList)))).take 30)),
       (("description").toList,
         .str ((pyStr (jget kvs (("description").toList) (.str []))).take 300))]
  | v => v

/-- A candidate that passes the dict and path checks of the loop. -/
def goodCandidate (f : JVal) : Prop :=
  ∃ kvs p q, f = JVal.obj kvs ∧
    jget kvs (("path").toList) (.str []) = .str p ∧ sanitize_path p = some q

theorem scaffoldLoop_prefix (cap : ℕ) :
    ∀ (files : List JVal) (total : ℕ),
      (∀ f ∈ files, goodCandidate f) →
      total ≤ cap →
      ∃ k, k ≤ files.length ∧
        scaffoldFilesLoop cap total files = some ((files.take k).map mkScaffoldFile) ∧
        total + ((files.take k).map scaffoldSize).sum ≤ cap ∧
        (k < files.length →
          cap < total + ((files.take (k+1)).map scaffoldSize).sum) := by
  intro files
  induction files with
  | nil =>
    intro total _ htot
    exact ⟨0, by simp, rfl, by simpa, by simp⟩
  | cons f rest ih =>
    intro total hgood htot
    obtain ⟨kvs, p, q, hf, hp, hq⟩ := hgood f (List.mem_cons_self f rest)
    subst hf
    have hmk : mkScaffoldFile (JVal.obj kvs) = .obj
        [(("path").toList, .str q),
         (("content").toList, .str (pyStr (jget kvs (("content").toList) (.str [])))),
         (("language").toList,
           .str ((pyStr (jget kvs (("language").toList) (.str (("text").toList)))).take 30)),
         (("description").toList,
           .str ((pyStr (jget kvs (("description").toList) (.str []))).take 300))] := by
      simp only [mkScaffoldFile]
      rw [hp]
      simp only [hq, Option.getD_some]
    have hsize : scaffoldSize (JVal.obj kvs) =
        utf8Len (pyStr (jget kvs (("content").toList) (.str []))) := rfl
    by_cases hover : cap < total + scaffoldSize (JVal.obj kvs)
    · refine ⟨0, by simp, ?_, by simpa, ?_⟩
      · simp only [scaffoldFilesLoop, hp, hq, hsize]
        rw [if_pos (by omega)]
        simp
      · intro _
        simpa using hover
    · have htot' : total + scaffoldSize (JVal.obj kvs) ≤ cap := by omega
      obtain ⟨k, hkle, heq, hbound, hoverf⟩ :=
        ih (total + scaffoldSize (JVal.obj kvs))
          (fun f hf => hgood f (List.mem_cons_of_mem _ hf)) htot'
      refine ⟨k + 1, by simpa using hkle, ?_, ?_, ?_⟩
      · simp only [scaffoldFilesLoop, hp, hq, hsize]
        rw [if_neg (by omega)]
        rw [show total + utf8Len (pyStr (jget kvs (("content").toList) (.str []))) =
              total + scaffoldSize (JVal.obj kvs) from rfl, heq]
        simp [hmk]
      · simp only [List.take_succ_cons, List.map_cons, List.sum_cons, hsize] at *
        omega
      · intro hlt
        have hlt' : k < rest.length := by simpa using hlt
        have := hoverf hlt'
        simp only [List.take_succ_cons, List.map_cons, List.sum_cons, hsize] at *
        omega

/-- C3: when path-valid candidate files sum beyond the 512 KiB cap, the
accepted files are an order-preserving prefix of the candidates (the first
`k`, mapped to their sanitized records), the cumulative size of that prefix
is within the cap, and the file that would overflow it — plus every file
after it — is dropped (the prefix of length `k+1` already exceeds the
cap). -/
theorem C3_budget (files : List JVal)
    (hgood : ∀ f ∈ files, goodCandidate f)
    (hover : MAX_SCAFFOLD_CONTENT_BYTES < (files.map scaffoldSize).sum) :
    ∃ k, k < files.length ∧
      scaffoldFilesLoop MAX_SCAFFOLD_CONTENT_BYTES 0 files =
        some ((files.take k).map mkScaffoldFile) ∧
      ((files.take k).map scaffoldSize).sum ≤ MAX_SCAFFOLD_CONTENT_BYTES ∧
      MAX_SCAFFOLD_CONTENT_BYTES < ((files.take (k+1)).map scaffoldSize).sum := by
  obtain ⟨k, hkle, heq, hbound, hoverf⟩ :=
    scaffoldLoop_prefix MAX_SCAFFOLD_CONTENT_BYTES files 0 hgood (Nat.zero_le _)
  have hklt : k < files.length := by
    rcases Nat.lt_or_ge k files.length with h | h
    · exact h
    · exfalso
      have hk : k = files.length := le_antisymm hkle h
      rw [hk, List.take_length] at hbound
      omega
  exact ⟨k, hklt, heq, by simpa using hbound, by simpa using hoverf hklt⟩

/-- Content of 512 KiB + 1 bytes. -/
def bigContent : List Char := List.replicate 524289 'x'

/-- A single candidate file whose content alone exceeds the cap. -/
def bigFile : JVal :=
  .obj [(("path").toList, .str (("notes.txt").toList)),
        (("content").toList, .str bigContent)]

theorem utf8Len_replicate (n : ℕ) : utf8Len (List.replicate n 'x') = n := by
  unfold utf8Len
  rw [List.map_replicate, List.sum_replicate]
  simp [show Char.utf8Size 'x' = 1 from rfl]

set_option maxRecDepth 2048 in
/-- C3 (witness): the budget theorem applied to one over-sized candidate. -/
theorem C3_budget_witness :
    (∀ f ∈ [bigFile], goodCandidate f) ∧
    MAX_SCAFFOLD_CONTENT_BYTES < ([bigFile].map scaffoldSize).sum ∧
    (∃ k, k < [bigFile].length ∧
      scaffoldFilesLoop MAX_SCAFFOLD_CONTENT_BYTES 0 [bigFile] =
        some (([bigFile].take k).map mkScaffoldFile) ∧
      (([bigFile].take k).map scaffoldSize).sum ≤ MAX_SCAFFOLD_CONTENT_BYTES ∧
      MAX_SCAFFOLD_CONTENT_BYTES < (([bigFile].take (k+1)).map scaffoldSize).sum) := by
  have hgood : ∀ f ∈ [bigFile], goodCandidate f := by
    intro f hf
    rw [List.mem_singleton] at hf
    subst hf
    exact ⟨[((("path").toList), JVal.str (("notes.txt").toList)),
            ((("content").toList), JVal.str bigContent)],
           ("notes.txt").toList, ("notes.txt").toList, rfl, rfl, rfl⟩
  have hsz : ([bigFile].map scaffoldSize).sum = 524289 := by
    have h1 : scaffoldSize bigFile = utf8Len bigContent := rfl
    rw [List.map_singleton, List.sum_singleton, h1,
        show bigContent = List.replicate 524289 'x' from rfl, utf8Len_replicate]
  have hover : MAX_SCAFFOLD_CONTENT_BYTES < ([bigFile].map scaffoldSize).sum := by
    rw [hsz]; norm_num [MAX_SCAFFOLD_CONTENT_BYTES]
  exact ⟨hgood, hover, C3_budget [bigFile] hgood hover⟩

/-! ### C9: idempotence of the sanitizers -/

theorem dropWhile_eq_self_of_all {p : Char → Bool} :
    ∀ {l : List Char}, (∀ c ∈ l, p c = false) → l.dropWhile p = l
  | [], _ => rfl
  | c :: t, h => by
    rw [List.dropWhile_cons, if_neg (by simp [h c (List.mem_cons_self c t)])]

theorem dropWhile_idem (p : Char → Bool) (l : List Char) :
    (l.dropWhile p).dropWhile p = l.dropWhile p := by
  induction l with
  | nil => rfl
  | cons c t ih =>
    rw [List.dropWhile_cons]
    by_cases hc : p c = true
    · rw [if_pos hc]; exact ih
    · rw [if_neg hc, List.dropWhile_cons, if_neg hc]

theorem pyStrip_eq_self {s : List Char} (h : ∀ c ∈ s, isPySpace c = false) :
    pyStrip s = s := by
  unfold pyStrip pyLStrip pyRStrip
  rw [dropWhile_eq_self_of_all h,
      dropWhile_eq_self_of_all (fun c hc => h c (List.mem_reverse.mp hc)),
      List.reverse_reverse]

theorem splitSeps_ne_nil (s : List Char) : splitSeps s ≠ [] := by
  cases s with
  | nil => simp [splitSeps]
  | cons c rest =>
    unfold splitSeps
    split_ifs with h
    · simp
    · split <;> simp

theorem intercalate_singleton (sep a : List Char) :
    List.intercalate sep [a] = a := by
  simp [List.intercalate]

theorem intercalate_cons₂ (sep a b : List Char) (t : List (List Char)) :
    List.intercalate sep (a :: b :: t) = a ++ (sep ++ List.intercalate sep (b :: t)) := by
  simp [List.intercalate, List.intersperse, List.append_assoc]

theorem intercalate_splitSeps :
    ∀ (s : List Char), (∀ c ∈ s, c ≠ '\\') →
      List.intercalate ['/'] (splitSeps s) = s
  | [], _ => by simp [splitSeps, intercalate_singleton]
  | c :: rest, h => by
    have ih := intercalate_splitSeps rest (fun x hx => h x (List.mem_cons_of_mem _ hx))
    obtain ⟨a, t, hat⟩ : ∃ a t, splitSeps rest = a :: t := by
      cases hsp : splitSeps rest with
      | nil => exact absurd hsp (splitSeps_ne_nil rest)
      | cons a t => exact ⟨a, t, rfl⟩
    unfold splitSeps
    split_ifs with hsep
    · have hc : c = '/' := by
        have hbs := h c (List.mem_cons_self c rest)
        revert hsep
        unfold isSep
        simp only [Bool.or_eq_true, decide_eq_true_eq]
        rintro (h1 | h1)
        · exact h1
        · exact absurd h1 hbs
      subst hc
      rw [hat, intercalate_cons₂]
      rw [hat] at ih
      simpa using ih
    · simp only [hat]
      rw [hat] at ih
      cases t with
      | nil =>
        rw [intercalate_singleton]
        rw [intercalate_singleton] at ih
        rw [ih]
      | cons b t2 =>
        rw [intercalate_cons₂]
        rw [intercalate_cons₂] at ih
        rw [List.cons_append, ih]

/-- A path that hides no whitespace or backslash (the inputs on which
`_sanitize_path` is stable). -/
def cleanPath (p : List Char) : Prop := ∀ c ∈ p, isPySpace c = false ∧ c ≠ '\\'

theorem mem_of_mem_pathNorm {a : Char} {p : List Char} (h : a ∈ pathNorm p) :
    a ∈ p := by
  unfold pathNorm at h
  exact mem_of_mem_pyStrip (mem_of_mem_dropWhile (mem_of_mem_dropWhile h))

theorem pathNorm_drop (p : List Char) (h : cleanPath p) :
    pathNorm p = p.dropWhile (fun c => decide (c = '/')) := by
  unfold pathNorm
  rw [pyStrip_eq_self (fun c hc => (h c hc).1)]
  apply dropWhile_eq_self_of_all
  intro c hc
  have hcp := h c (mem_of_mem_dropWhile hc)
  simp [hcp.2]

theorem pathNorm_idem (p : List Char) (h : cleanPath p) :
    pathNorm (pathNorm p) = pathNorm p := by
  have h2 : cleanPath (pathNorm p) := fun c hc => h c (mem_of_mem_pathNorm hc)
  rw [pathNorm_drop _ h2, pathNorm_drop _ h, dropWhile_idem]

theorem sanitize_path_congr {a b : List Char} (h : pathNorm a = pathNorm b) :
    sanitize_path a = sanitize_path b := by
  unfold sanitize_path
  rw [h]

theorem sanitize_path_stable {p q : List Char} (hcl : cleanPath p)
    (hq : sanitize_path p = some q) : sanitize_path q = some q := by
  have hq' : q = List.intercalate ['/'] (splitSeps (pathNorm p)) := by
    unfold sanitize_path at hq
    split_ifs at hq
    exact (Option.some.inj hq).symm
  have hIc : List.intercalate ['/'] (splitSeps (pathNorm p)) = pathNorm p :=
    intercalate_splitSeps _ (fun c hc => (hcl c (mem_of_mem_pathNorm hc)).2)
  have hqp : q = pathNorm p := by rw [hq', hIc]
  have hcongr : sanitize_path q = sanitize_path p :=
    sanitize_path_congr (by rw [hqp, pathNorm_idem p hcl])
  rw [hcongr, hq]

/-- A file entry whose `path` value (when it is a string) hides no whitespace
and no backslash. -/
def fileCleanB (f : JVal) : Bool :=
  match f with
  | .obj kvs =>
    (match jget kvs (("path").toList) (.str []) with
     | .str p => p.all (fun c => !(isPySpace c) && !(c = '\\'))
     | _ => true)
  | _ => true

/-- All candidate files of a scaffold dict are `fileCleanB`. -/
def scaffoldCleanPaths (x : JVal) : Bool :=
  match x with
  | .obj kvs =>
    (match iterElems (jget kvs (("files").toList) (.arr [])) with
     | some fs => fs.all fileCleanB
     | none => true)
  | _ => true

theorem toLower_fixed {c : Char}
    (h : (('a' ≤ c && c ≤ 'z') || ('0' ≤ c && c ≤ '9') || (c = '-')) = true) :
    c.toLower = c := by
  unfold Char.toLower
  simp only [Bool.or_eq_true, Bool.and_eq_true, decide_eq_true_eq] at h
  have hn : ¬(c.toNat ≥ 65 ∧ c.toNat ≤ 90) := by
    rcases h with (⟨h1, h2⟩ | ⟨h1, h2⟩) | h1
    · have h97 : (97 : ℕ) ≤ c.toNat := Char.le_def.mp h1
      omega
    · have h57 : c.toNat ≤ (57 : ℕ) := Char.le_def.mp h2
      omega
    · subst h1; decide
  rw [if_neg hn]

theorem sanitizeProjectName_fixed {n : List Char}
    (hch : ∀ c ∈ n, (('a' ≤ c && c ≤ 'z') || ('0' ≤ c && c ≤ '9') || (c = '-')) = true)
    (hlen : n.length ≤ 80) (hne : n ≠ []) :
    sanitizeProjectName n = n := by
  unfold sanitizeProjectName
  have hmap : n.map Char.toLower = n := by
    rw [show n.map Char.toLower = n.map id from
          List.map_congr_left (fun c hc => toLower_fixed (hch c hc))]
    exact List.map_id n
  rw [hmap, List.filter_eq_self.mpr hch, List.take_of_length_le hlen, if_neg hne]

theorem sanitizeProjectName_idem (r : List Char) :
    sanitizeProjectName (sanitizeProjectName r) = sanitizeProjectName r := by
  by_cases h : (((r.map Char.toLower).filter
      (fun c => ('a' ≤ c && c ≤ 'z') || ('0' ≤ c && c ≤ '9') || c = '-')).take 80) = []
  · rw [show sanitizeProjectName r = ("scaffold-project").toList from by
          unfold sanitizeProjectName; rw [if_pos h]]
    rfl
  · rw [show sanitizeProjectName r = ((r.map Char.toLower).filter
          (fun c => ('a' ≤ c && c ≤ 'z') || ('0' ≤ c && c ≤ '9') || c = '-')).take 80 from by
          unfold sanitizeProjectName; rw [if_neg h]]
    apply sanitizeProjectName_fixed
    · intro c hc
      exact (List.mem_filter.mp (List.mem_of_mem_take hc)).2
    · exact List.length_take_le 80 _
    · exact h

/-- One accepting step of the budget loop on an already-sanitized record. -/
theorem scaffoldLoop_cons_record (cap total : ℕ) (q c lang desc : List Char)
    (out' fs2 : List JVal)
    (hq : sanitize_path q = some q)
    (hle : ¬(total + utf8Len c > cap))
    (hlang : lang.take 30 = lang) (hdesc : desc.take 300 = desc)
    (hrec : scaffoldFilesLoop cap (total + utf8Len c) out' = some fs2) :
    scaffoldFilesLoop cap total
      (JVal.obj [(("path").toList, .str q), (("content").toList, .str c),
                 (("language").toList, .str lang), (("description").toList, .str desc)]
        :: out')
      = some (JVal.obj [(("path").toList, .str q), (("content").toList, .str c),
                 (("language").toList, .str lang), (("description").toList, .str desc)]
        :: fs2) := by
  have h1 : jget [(("path").toList, JVal.str q), (("content").toList, JVal.str c),
      (("language").toList, JVal.str lang), (("description").toList, JVal.str desc)]
      (("path").toList) (.str []) = .str q := rfl
  simp only [scaffoldFilesLoop, h1, hq]
  rw [if_neg (by simpa using hle)]
  rw [show pyStr (jget [(("path").toList, JVal.str q), (("content").toList, JVal.str c),
        (("language").toList, JVal.str lang), (("description").toList, JVal.str desc)]
        (("content").toList) (.str [])) = c from rfl] at *
  rw [hrec]
  simp only [Option.map_some']
  rw [show pyStr (jget [(("path").toList, JVal.str q), (("content").toList, JVal.str c),
        (("language").toList, JVal.str lang), (("description").toList, JVal.str desc)]
        (("language").toList) (.str (("text").toList))) = lang from rfl,
      show pyStr (jget [(("path").toList, JVal.str q), (("content").toList, JVal.str c),
        (("language").toList, JVal.str lang), (("description").toList, JVal.str desc)]
        (("description").toList) (.str [])) = desc from rfl,
      hlang, hdesc]

theorem scaffoldLoop_idem (cap : ℕ) :
    ∀ (fs : List JVal) (total : ℕ) (out : List JVal),
      (∀ f ∈ fs, fileCleanB f = true) →
      scaffoldFilesLoop cap total fs = some out →
      scaffoldFilesLoop cap total out = some out := by
  intro fs
  induction fs with
  | nil =>
    intro total out _ h
    have h0 : ([] : List JVal) = out := Option.some.inj h
    subst h0
    rfl
  | cons f rest ih =>
    intro total out hclean hout
    have hcrest : ∀ g ∈ rest, fileCleanB g = true :=
      fun g hg => hclean g (List.mem_cons_of_mem _ hg)
    cases f with
    | null => exact ih total out hcrest (by simpa only [scaffoldFilesLoop] using hout)
    | bool b => exact ih total out hcrest (by simpa only [scaffoldFilesLoop] using hout)
    | num n => exact ih total out hcrest (by simpa only [scaffoldFilesLoop] using hout)
    | str s => exact ih total out hcrest (by simpa only [scaffoldFilesLoop] using hout)
    | arr a => exact ih total out hcrest (by simpa only [scaffoldFilesLoop] using hout)
    | obj kvs =>
      cases hpv : jget kvs (("path").toList) (.str []) with
      | str p =>
        cases hsp : sanitize_path p with
        | none =>
          have hout' : scaffoldFilesLoop cap total rest = some out := by
            have := hout
            simp only [scaffoldFilesLoop, hpv, hsp] at this
            exact this
          exact ih total out hcrest hout'
        | some q =>
          have hclp : cleanPath p := by
            have hb := hclean (JVal.obj kvs) (List.mem_cons_self _ _)
            simp only [fileCleanB, hpv] at hb
            intro ch hch
            have hall := List.all_eq_true.mp hb ch hch
            simp only [Bool.and_eq_true, Bool.not_eq_true'] at hall
            refine ⟨hall.1, ?_⟩
            simpa using hall.2
          have hqs : sanitize_path q = some q := sanitize_path_stable hclp hsp
          by_cases hov :
              total + utf8Len (pyStr (jget kvs (("content").toList) (.str []))) > cap
          · have hout0 : out = [] := by
              have h2 := hout
              simp only [scaffoldFilesLoop, hpv, hsp] at h2
              rw [if_pos hov] at h2
              exact (Option.some.inj h2).symm
            subst hout0
            rfl
          · have hsplit : ∃ out',
                scaffoldFilesLoop cap
                  (total + utf8Len (pyStr (jget kvs (("content").toList) (.str [])))) rest =
                    some out' ∧
                out = JVal.obj [(("path").toList, .str q),
                  (("content").toList, .str (pyStr (jget kvs (("content").toList) (.str [])))),
                  (("language").toList,
                    .str ((pyStr (jget kvs (("language").toList) (.str (("text").toList)))).take 30)),
                  (("description").toList,
                    .str ((pyStr (jget kvs (("description").toList) (.str []))).take 300))] :: out' := by
              have h2 := hout
              simp only [scaffoldFilesLoop, hpv, hsp] at h2
              rw [if_neg hov] at h2
              cases hlo : scaffoldFilesLoop cap
                  (total + utf8Len (pyStr (jget kvs (("content").toList) (.str [])))) rest with
              | none => rw [hlo] at h2; simp at h2
              | some o =>
                rw [hlo] at h2
                simp only [Option.map_some'] at h2
                exact ⟨o, rfl, (Option.some.inj h2).symm⟩
            obtain ⟨out', hout', houteq⟩ := hsplit
            subst houteq
            exact scaffoldLoop_cons_record cap total q _ _ _ out' out' hqs hov
              (by rw [List.take_take]; simp)
              (by rw [List.take_take]; simp)
              (ih _ out' hcrest hout')
      | null =>
        have h2 := hout
        simp only [scaffoldFilesLoop, hpv] at h2
        exact absurd h2 (by simp)
      | bool b =>
        have h2 := hout
        simp only [scaffoldFilesLoop, hpv] at h2
        exact absurd h2 (by simp)
      | num n =>
        have h2 := hout
        simp only [scaffoldFilesLoop, hpv] at h2
        exact absurd h2 (by simp)
      | arr a =>
        have h2 := hout
        simp only [scaffoldFilesLoop, hpv] at h2
        exact absurd h2 (by simp)
      | obj o =>
        have h2 := hout
        simp only [scaffoldFilesLoop, hpv] at h2
        exact absurd h2 (by simp)

theorem validate_scaffold_idem (x y : JVal)
    (hcl : scaffoldCleanPaths x = true)
    (hv : validate_scaffold_v x = some y) :
    validate_scaffold_v y = some y := by
  cases x with
  | null => exact absurd hv (by simp [validate_scaffold_v])
  | bool b => exact absurd hv (by simp [validate_scaffold_v])
  | num n => exact absurd hv (by simp [validate_scaffold_v])
  | str s => exact absurd hv (by simp [validate_scaffold_v])
  | arr a => exact absurd hv (by simp [validate_scaffold_v])
  | obj kvs =>
    simp only [validate_scaffold_v, validate_scaffold] at hv
    cases hie : iterElems (jget kvs (("files").toList) (.arr [])) with
    | none => simp only [hie] at hv; exact absurd hv (by simp)
    | some rawFiles =>
      simp only [hie] at hv
      cases hlo : scaffoldFilesLoop MAX_SCAFFOLD_CONTENT_BYTES 0 rawFiles with
      | none => simp only [hlo] at hv; exact absurd hv (by simp)
      | some files =>
        simp only [hlo] at hv
        have hy := Option.some.inj hv
        subst hy
        have hcl2 : ∀ f ∈ rawFiles, fileCleanB f = true := by
          simp only [scaffoldCleanPaths, hie] at hcl
          exact List.all_eq_true.mp hcl
        have hloop2 := scaffoldLoop_idem MAX_SCAFFOLD_CONTENT_BYTES rawFiles 0 files hcl2 hlo
        generalize pyStr (jget kvs (("project_name").toList) (.str (("scaffold-project").toList))) = X
        generalize pyStr (jget kvs (("file_tree").toList) (.str [])) = Y
        have e1 : jget
            [(("project_name").toList, JVal.str (sanitizeProjectName X)),
             (("files").toList, JVal.arr files),
             (("file_tree").toList, JVal.str (Y.take 5000))] (("files").toList) (.arr [])
            = .arr files := rfl
        have e2 : iterElems (JVal.arr files) = some files := rfl
        have e3 : jget
            [(("project_name").toList, JVal.str (sanitizeProjectName X)),
             (("files").toList, JVal.arr files),
             (("file_tree").toList, JVal.str (Y.take 5000))]
            (("project_name").toList) (.str (("scaffold-project").toList))
            = .str (sanitizeProjectName X) := rfl
        have e4 : jget
            [(("project_name").toList, JVal.str (sanitizeProjectName X)),
             (("files").toList, JVal.arr files),
             (("file_tree").toList, JVal.str (Y.take 5000))]
            (("file_tree").toList) (.str []) = .str (Y.take 5000) := rfl
        simp only [validate_scaffold_v, validate_scaffold, e1, e2, hloop2, e3, e4]
        have e5 : pyStr (JVal.str (sanitizeProjectName X)) = sanitizeProjectName X := rfl
        have e6 : pyStr (JVal.str (Y.take 5000)) = Y.take 5000 := rfl
        rw [e5, e6, sanitizeProjectName_idem, List.take_take, Nat.min_self]

/-- Clamping to `[0, 100]` is idempotent. -/
theorem clamp100_idem (q : ℚ) :
    max 0 (min 100 (max 0 (min 100 q))) = max 0 (min 100 q) := by
  have h1 : (0 : ℚ) ≤ max 0 (min 100 q) := le_max_left _ _
  have h2 : max 0 (min 100 q) ≤ 100 := max_le (by norm_num) (min_le_left _ _)
  rw [min_eq_right h2, max_eq_right h1]

/-- A value already produced by `[:n]` slicing is left unchanged by slicing
again. -/
theorem pySlice_stable (v w : JVal) (n : ℕ) (h : pySlice? v n = some w) :
    pySlice? w n = some w := by
  cases v with
  | arr xs =>
    simp only [pySlice?] at h
    have hw := Option.some.inj h
    subst hw
    simp [pySlice?, List.take_take]
  | str s =>
    simp only [pySlice?] at h
    have hw := Option.some.inj h
    subst hw
    simp [pySlice?, List.take_take]
  | null => exact absurd h (by simp [pySlice?])
  | bool b => exact absurd h (by simp [pySlice?])
  | num q => exact absurd h (by simp [pySlice?])
  | obj kvs => exact absurd h (by simp [pySlice?])

/-- Any output literal of `fitness_normalize` is a fixed point of a second
normalization pass. -/
theorem fitness_normalize_fixed (fs : ℚ) (t : List Char)
    (ht : t = ("strong_fit").toList ∨ t = ("good_fit").toList ∨
          t = ("partial_fit").toList ∨ t = ("weak_fit").toList)
    (matched missing strengths improvements : JVal) (fb : List Char)
    (hm : pySlice? matched 20 = some matched)
    (hmi : pySlice? missing 15 = some missing)
    (hs : pySlice? strengths 10 = some strengths)
    (hi : pySlice? improvements 10 = some improvements) :
    fitness_normalize
      [(("fitness_score").toList, .num (max 0 (min 100 fs))),
       (("verdict").toList, .str t),
       (("matched_skills").toList, matched),
       (("missing_skills").toList, missing),
       (("strengths").toList, strengths),
       (("improvements").toList, improvements),
       (("detailed_feedback").toList, .str (fb.take 5000))] =
    some (.obj
      [(("fitness_score").toList, .num (max 0 (min 100 fs))),
       (("verdict").toList, .str t),
       (("matched_skills").toList, matched),
       (("missing_skills").toList, missing),
       (("strengths").toList, strengths),
       (("improvements").toList, improvements),
       (("detailed_feedback").toList, .str (fb.take 5000))]) := by
  have e1 : jget
      [(("fitness_score").toList, JVal.num (max 0 (min 100 fs))),
       (("verdict").toList, JVal.str t),
       (("matched_skills").toList, matched),
       (("missing_skills").toList, missing),
       (("strengths").toList, strengths),
       (("improvements").toList, improvements),
       (("detailed_feedback").toList, JVal.str (fb.take 5000))]
      (("fitness_score").toList) (.num 0) = .num (max 0 (min 100 fs)) := rfl
  have e2 : jget
      [(("fitness_score").toList, JVal.num (max 0 (min 100 fs))),
       (("verdict").toList, JVal.str t),
       (("matched_skills").toList, matched),
       (("missing_skills").toList, missing),
       (("strengths").toList, strengths),
       (("improvements").toList, improvements),
       (("detailed_feedback").toList, JVal.str (fb.take 5000))]
      (("verdict").toList) (.str (("weak_fit").toList)) = .str t := rfl
  have e3 : jget
      [(("fitness_score").toList, JVal.num (max 0 (min 100 fs))),
       (("verdict").toList, JVal.str t),
       (("matched_skills").toList, matched),
       (("missing_skills").toList, missing),
       (("strengths").toList, strengths),
       (("improvements").toList, improvements),
       (("detailed_feedback").toList, JVal.str (fb.take 5000))]
      (("matched_skills").toList) (.arr []) = matched := rfl
  have e4 : jget
      [(("fitness_score").toList, JVal.num (max 0 (min 100 fs))),
       (("verdict").toList, JVal.str t),
       (("matched_skills").toList, matched),
       (("missing_skills").toList, missing),
       (("strengths").toList, strengths),
       (("improvements").toList, improvements),
       (("detailed_feedback").toList, JVal.str (fb.take 5000))]
      (("missing_skills").toList) (.arr []) = missing := rfl
  have e5 : jget
      [(("fitness_score").toList, JVal.num (max 0 (min 100 fs))),
       (("verdict").toList, JVal.str t),
       (("matched_skills").toList, matched),
       (("missing_skills").toList, missing),
       (("strengths").toList, strengths),
       (("improvements").toList, improvements),
       (("detailed_feedback").toList, JVal.str (fb.take 5000))]
      (("strengths").toList) (.arr []) = strengths := rfl
  have e6 : jget
      [(("fitness_score").toList, JVal.num (max 0 (min 100 fs))),
       (("verdict").toList, JVal.str t),
       (("matched_skills").toList, matched),
       (("missing_skills").toList, missing),
       (("strengths").toList, strengths),
       (("improvements").toList, improvements),
       (("detailed_feedback").toList, JVal.str (fb.take 5000))]
      (("improvements").toList) (.arr []) = improvements := rfl
  have e7 : jget
      [(("fitness_score").toList, JVal.num (max 0 (min 100 fs))),
       (("verdict").toList, JVal.str t),
       (("matched_skills").toList, matched),
       (("missing_skills").toList, missing),
       (("strengths").toList, strengths),
       (("improvements").toList, improvements),
       (("detailed_feedback").toList, JVal.str (fb.take 5000))]
      (("detailed_feedback").toList) (.str []) = .str (fb.take 5000) := rfl
  have e8 : pyFloat? (JVal.num (max 0 (min 100 fs))) = some (max 0 (min 100 fs)) := rfl
  have e9 : pyStr (JVal.str (fb.take 5000)) = fb.take 5000 := rfl
  simp only [fitness_normalize, e1, e2, e3, e4, e5, e6, e7, e8, e9, hm, hmi, hs, hi]
  rw [if_pos ht, clamp100_idem, List.take_take, Nat.min_self]

/-- The validate-and-normalize section of `fitness_scorer_node` is
idempotent: normalizing an already-normalized result returns it unchanged. -/
theorem fitness_normalize_idem (x y : JVal)
    (h : fitness_normalize_v x = some y) :
    fitness_normalize_v y = some y := by
  cases x with
  | null => exact absurd h (by simp [fitness_normalize_v])
  | bool b => exact absurd h (by simp [fitness_normalize_v])
  | num q => exact absurd h (by simp [fitness_normalize_v])
  | str s => exact absurd h (by simp [fitness_normalize_v])
  | arr a => exact absurd h (by simp [fitness_normalize_v])
  | obj kvs =>
    simp only [fitness_normalize_v, fitness_normalize] at h
    cases h1 : pyFloat? (jget kvs (("fitness_score").toList) (.num 0)) with
    | none => simp only [h1] at h; exact absurd h (by simp)
    | some fs =>
      simp only [h1] at h
      cases h2 : pySlice? (jget kvs (("matched_skills").toList) (.arr [])) 20 with
      | none => simp only [h2] at h; exact absurd h (by simp)
      | some matched =>
        simp only [h2] at h
        cases h3 : pySlice? (jget kvs (("missing_skills").toList) (.arr [])) 15 with
        | none => simp only [h3] at h; exact absurd h (by simp)
        | some missing =>
          simp only [h3] at h
          cases h4 : pySlice? (jget kvs (("strengths").toList) (.arr [])) 10 with
          | none => simp only [h4] at h; exact absurd h (by simp)
          | some strengths =>
            simp only [h4] at h
            cases h5 : pySlice? (jget kvs (("improvements").toList) (.arr [])) 10 with
            | none => simp only [h5] at h; exact absurd h (by simp)
            | some improvements =>
              simp only [h5] at h
              have hm := pySlice_stable _ _ _ h2
              have hmi := pySlice_stable _ _ _ h3
              have hs := pySlice_stable _ _ _ h4
              have hi := pySlice_stable _ _ _ h5
              cases hvd : jget kvs (("verdict").toList) (.str (("weak_fit").toList)) with
              | str s =>
                simp only [hvd] at h
                by_cases hc : s = ("strong_fit").toList ∨ s = ("good_fit").toList ∨
                    s = ("partial_fit").toList ∨ s = ("weak_fit").toList
                · rw [if_pos hc] at h
                  have hy := Option.some.inj h
                  subst hy
                  simp only [fitness_normalize_v]
                  exact fitness_normalize_fixed fs s hc matched missing strengths
                    improvements _ hm hmi hs hi
                · rw [if_neg hc] at h
                  have hy := Option.some.inj h
                  subst hy
                  simp only [fitness_normalize_v]
                  exact fitness_normalize_fixed fs (("partial_fit").toList)
                    (Or.inr (Or.inr (Or.inl rfl))) matched missing strengths
                    improvements _ hm hmi hs hi
              | null =>
                simp only [hvd] at h
                have hy := Option.some.inj h
                subst hy
                simp only [fitness_normalize_v]
                exact fitness_normalize_fixed fs (("partial_fit").toList)
                  (Or.inr (Or.inr (Or.inl rfl))) matched missing strengths
                  improvements _ hm hmi hs hi
              | bool b =>
                simp only [hvd] at h
                have hy := Option.some.inj h
                subst hy
                simp only [fitness_normalize_v]
                exact fitness_normalize_fixed fs (("partial_fit").toList)
                  (Or.inr (Or.inr (Or.inl rfl))) matched missing strengths
                  improvements _ hm hmi hs hi
              | num q =>
                simp only [hvd] at h
                have hy := Option.some.inj h
                subst hy
                simp only [fitness_normalize_v]
                exact fitness_normalize_fixed fs (("partial_fit").toList)
                  (Or.inr (Or.inr (Or.inl rfl))) matched missing strengths
                  improvements _ hm hmi hs hi
              | arr a =>
                simp only [hvd] at h
                have hy := Option.some.inj h
                subst hy
                simp only [fitness_normalize_v]
                exact fitness_normalize_fixed fs (("partial_fit").toList)
                  (Or.inr (Or.inr (Or.inl rfl))) matched missing strengths
                  improvements _ hm hmi hs hi
              | obj o =>
                simp only [hvd] at h
                have hy := Option.some.inj h
                subst hy
                simp only [fitness_normalize_v]
                exact fitness_normalize_fixed fs (("partial_fit").toList)
                  (Or.inr (Or.inr (Or.inl rfl))) matched missing strengths
                  improvements _ hm hmi hs hi

/-- A scaffold whose only file path starts with `"/ "`: one pass of
`_validate_scaffold` trims the `/` but leaves the space; a second pass trims
the space too. -/
def spaceyScaffold : JVal :=
  .obj [(("files").toList,
    .arr [.obj [(("path").toList, .str (("/ a.py").toList)),
                (("content").toList, .str [])]])]

/-- Projection: the `path` of the first file of a validated scaffold. -/
def firstPathOf (v : JVal) : List Char :=
  match v with
  | .obj kvs =>
    match jget kvs (("files").toList) (.arr []) with
    | .arr (.obj fkvs :: _) => pyStr (jget fkvs (("path").toList) (.str []))
    | _ => []
  | _ => []

/-- A well-formed fitness result used to exercise `fitness_normalize_v`. -/
def fitnessIn : JVal :=
  .obj [(("fitness_score").toList, .num (mkRat 72 1)),
        (("verdict").toList, .str (("good_fit").toList)),
        (("matched_skills").toList, .arr []),
        (("missing_skills").toList, .arr []),
        (("strengths").toList, .arr []),
        (("improvements").toList, .arr []),
        (("detailed_feedback").toList, .str (("ok").toList))]

/-- The normalization of `fitnessIn`. -/
def fitnessOut : JVal :=
  .obj [(("fitness_score").toList, .num (max 0 (min 100 (mkRat 72 1)))),
        (("verdict").toList, .str (("good_fit").toList)),
        (("matched_skills").toList, .arr []),
        (("missing_skills").toList, .arr []),
        (("strengths").toList, .arr []),
        (("improvements").toList, .arr []),
        (("detailed_feedback").toList, .str (("ok").toList))]

/-- A scaffold with an already-clean file path. -/
def cleanScaffold : JVal :=
  .obj [(("files").toList,
          .arr [.obj [(("path").toList, .str (("src/main.py").toList)),
                      (("content").toList, .str (("print").toList))]]),
        (("project_name").toList, .str (("demo").toList)),
        (("file_tree").toList, .str (("src/").toList))]

/-- The validation of `cleanScaffold`. -/
def cleanScaffoldOut : JVal :=
  .obj [(("project_name").toList, .str (("demo").toList)),
        (("files").toList,
          .arr [.obj [(("path").toList, .str (("src/main.py").toList)),
                      (("content").toList, .str (("print").toList)),
                      (("language").toList, .str (("text").toList)),
                      (("description").toList, .str [])]]),
        (("file_tree").toList, .str (("src/").toList))]

/-- C9 (counterexample): the scaffold sanitizer is not idempotent.  On a file
path `"/ a.py"` the first pass strips the leading `/` (leaving `" a.py"`), and
the second pass additionally strips the now-leading space, so re-validating a
validated scaffold changes it. -/
theorem C9_counterexample :
    (validate_scaffold_v spaceyScaffold).bind validate_scaffold_v ≠
      validate_scaffold_v spaceyScaffold := by
  intro h
  have h2 : ((validate_scaffold_v spaceyScaffold).bind validate_scaffold_v).map firstPathOf =
      (validate_scaffold_v spaceyScaffold).map firstPathOf :=
    congrArg (fun o => o.map firstPathOf) h
  exact absurd h2 (by decide)

/-- C9 (amended): the fitness sanitizer is idempotent on every input, and the
scaffold sanitizer is idempotent on every scaffold whose file paths are already
clean (no strippable whitespace and no backslashes); in general the scaffold
sanitizer is not idempotent. -/
theorem C9_amended :
    (∀ x y : JVal, fitness_normalize_v x = some y → fitness_normalize_v y = some y) ∧
    (∀ x y : JVal, scaffoldCleanPaths x = true → validate_scaffold_v x = some y →
      validate_scaffold_v y = some y) :=
  ⟨fun x y h => fitness_normalize_idem x y h,
   fun x y hcl hv => validate_scaffold_idem x y hcl hv⟩

/-- C9 (witness): both halves of the amended idempotence at concrete inputs. -/
theorem C9_amended_witness :
    fitness_normalize_v fitnessOut = some fitnessOut ∧
    validate_scaffold_v cleanScaffoldOut = some cleanScaffoldOut :=
  ⟨C9_amended.1 fitnessIn fitnessOut rfl,
   C9_amended.2 cleanScaffold cleanScaffoldOut (by decide) rfl⟩

/-- C10 (witness): the default at the unknown archetype `"Google"`. -/
theorem C10_company_default_witness :
    (("Google").toList).map Char.toLower ∉ COMPANY_MODIFIERS.map Prod.fst ∧
    company_logic_run (("Google").toList) (.obj []) =
      company_run_core MID_LEVEL_MODIFIERS ((("Google").toList).map Char.toLower) (.obj []) :=
  ⟨by decide, C10_company_default (("Google").toList) (.obj []) (by decide)⟩

end Shortlist
